import Mathlib

/-!
Verification of the brsr-backend document-ingestion pipeline.

Shallow embedding of the Python sources:
- `app/services/gemini_service.py` (extraction client: retry loop, response
  cleaning, stock-exchange normalization),
- `app/services/storage_service.py` (blob upload retry, duplicate detection),
- `app/routes/upload.py` (batch submission orchestrator, background update),
- `app/services/excel_service.py` (row fan-out for export),
- `app/routes/excel.py` (export endpoint).

Machine strings are modelled over ASCII (the Python string operations used by
the code: `.lower()`, `.strip()`, `.upper()`, substring tests, and the regular
expressions involved all act characterwise and agree with this model on ASCII
text). JSON values are a standard inductive; the parser below models
`json.loads` on the integer fragment of the grammar, which covers every input
any theorem in this file feeds to it.
-/

set_option maxRecDepth 20000

namespace Brsr

/-! ### Python string primitives (ASCII model) -/

/-- ASCII `str.lower` on one character. -/
def pyLowerChar (c : Char) : Char :=
  if 'A' ≤ c ∧ c ≤ 'Z' then Char.ofNat (c.toNat + 32) else c

/-- ASCII `str.upper` on one character. -/
def pyUpperChar (c : Char) : Char :=
  if 'a' ≤ c ∧ c ≤ 'z' then Char.ofNat (c.toNat - 32) else c

/-- Python whitespace (the ASCII characters matched by `str.strip` and `\s`). -/
def isPyWs (c : Char) : Bool :=
  c = ' ' || c = '\t' || c = '\n' || c = '\r' || c = '\x0b' || c = '\x0c'

/-- Word character for the regex `\b` boundary (`[A-Za-z0-9_]`). -/
def isWordChar (c : Char) : Bool :=
  c.isAlphanum || c = '_'

def pyLower (s : String) : String := String.mk (s.data.map pyLowerChar)

def pyUpper (s : String) : String := String.mk (s.data.map pyUpperChar)

/-- `str.strip()` (whitespace from both ends). -/
def pyStrip (s : String) : String :=
  String.mk (((s.data.dropWhile isPyWs).reverse.dropWhile isPyWs).reverse)

/-- `pat` is a prefix of `text` (characterwise). -/
def listIsPre : List Char → List Char → Bool
  | [], _ => true
  | _ :: _, [] => false
  | p :: ps, c :: cs => p = c && listIsPre ps cs

/-- `pat` occurs somewhere inside `text` (Python `pat in text`). -/
def hasSub (text pat : List Char) : Bool :=
  match text with
  | [] => listIsPre pat []
  | c :: cs => listIsPre pat (c :: cs) || hasSub cs pat

def strContains (s pat : String) : Bool := hasSub s.data pat.data

/-- `text` ends with `pat`. -/
def strEnds (s pat : String) : Bool := listIsPre pat.data.reverse s.data.reverse

/-- Scanner for `re.search(r"\b<pat>\b", text)` where `pat = p :: ps` consists
of word characters. `prev` is the character just before the scan position. -/
def hasWordGo (p : Char) (ps : List Char) (prev : Option Char) : List Char → Bool
  | [] => false
  | c :: cs =>
    let boundaryBefore := match prev with
      | none => true
      | some q => !(isWordChar q)
    let after := (c :: cs).drop (ps.length + 1)
    let boundaryAfter := match after with
      | [] => true
      | d :: _ => !(isWordChar d)
    (boundaryBefore && listIsPre (p :: ps) (c :: cs) && boundaryAfter) ||
      hasWordGo p ps (some c) cs

/-- `re.search(r"\b<pat>\b", s)` as a Bool (nonempty all-word-char `pat`). -/
def hasWordSub (s pat : String) : Bool :=
  match pat.data with
  | [] => true
  | p :: ps => hasWordGo p ps none s.data

/-- `re.sub(r"\b<pat>\b", "", text)`: delete every non-overlapping match,
scanning left to right over the original text (as Python `re.sub` does).
The `fuel` argument only drives structural recursion: every step consumes
at least one character, so any `fuel` exceeding the text length yields the
full scan (callers pass `length + 1`). -/
def removeWordGo (p : Char) (ps : List Char) : Nat → Option Char → List Char → List Char
  | 0, _, l => l
  | _ + 1, _, [] => []
  | fuel + 1, prev, c :: cs =>
    let boundaryBefore := match prev with
      | none => true
      | some q => !(isWordChar q)
    let after := cs.drop ps.length
    let boundaryAfter := match after with
      | [] => true
      | d :: _ => !(isWordChar d)
    if boundaryBefore && listIsPre (p :: ps) (c :: cs) && boundaryAfter then
      removeWordGo p ps fuel (some ((ps.getLast?).getD p)) (cs.drop ps.length)
    else
      c :: removeWordGo p ps fuel (some c) cs

def removeWordAll (s pat : String) : String :=
  match pat.data with
  | [] => s
  | p :: ps => String.mk (removeWordGo p ps (s.data.length + 1) none s.data)

/-- `re.sub(r"<pat>", "", text)` for a literal pattern: delete every
non-overlapping occurrence, scanning left to right (`fuel` as in
`removeWordGo`). -/
def removeSubGo (p : Char) (ps : List Char) : Nat → List Char → List Char
  | 0, l => l
  | _ + 1, [] => []
  | fuel + 1, c :: cs =>
    if listIsPre (p :: ps) (c :: cs) then
      removeSubGo p ps fuel (cs.drop ps.length)
    else
      c :: removeSubGo p ps fuel cs

def removeSubAll (s pat : String) : String :=
  match pat.data with
  | [] => s
  | p :: ps => String.mk (removeSubGo p ps (s.data.length + 1) s.data)

/-! ### JSON values and a model of `json.loads` -/

inductive Json where
  | null : Json
  | bool (b : Bool) : Json
  | num (n : Int) : Json
  | str (s : String) : Json
  | arr (elems : List Json) : Json
  | obj (fields : List (String × Json)) : Json

/-- First-match association lookup (object keys are unique by construction:
the parser and every writer below insert with `setKey`). -/
def jLookup : List (String × Json) → String → Option Json
  | [], _ => none
  | (k, v) :: rest, key => if k = key then some v else jLookup rest key

/-- Python `dict` assignment: replace in place if the key exists (keeping its
position), otherwise append. -/
def setKey : List (String × Json) → String → Json → List (String × Json)
  | [], k, v => [(k, v)]
  | (k0, v0) :: rest, k, v =>
    if k0 = k then (k0, v) :: rest else (k0, v0) :: setKey rest k v

def isJsonDigit (c : Char) : Bool := '0' ≤ c && c ≤ '9'

/-- Lex a JSON string body after the opening quote; supports the escapes the
modelled inputs use. Returns the string and the input after the closing quote. -/
def lexStr : List Char → Option (String × List Char)
  | [] => none
  | c :: cs =>
    if c = '"' then
      some ("", cs)
    else if c = '\\' then
      match cs with
      | [] => none
      | e :: cs' =>
        let dec : Option Char :=
          if e = '"' then some '"'
          else if e = '\\' then some '\\'
          else if e = '/' then some '/'
          else if e = 'n' then some '\n'
          else if e = 't' then some '\t'
          else if e = 'r' then some '\r'
          else none
        match dec with
        | none => none
        | some d =>
          match lexStr cs' with
          | some (s, rest) => some (String.mk (d :: s.data), rest)
          | none => none
    else
      match lexStr cs with
      | some (s, rest) => some (String.mk (c :: s.data), rest)
      | none => none

/-- Lex a JSON integer (optional minus, no leading zeros). -/
def lexInt (cs : List Char) : Option (Int × List Char) :=
  let (neg, cs') := match cs with
    | '-' :: rest => (true, rest)
    | _ => (false, cs)
  let digits := cs'.takeWhile isJsonDigit
  let rest := cs'.dropWhile isJsonDigit
  if digits = [] then none
  else if digits.length > 1 && digits.headD '0' = '0' then none
  else
    let n : Nat := digits.foldl (fun acc d => acc * 10 + (d.toNat - 48)) 0
    some (if neg then -(n : Int) else (n : Int), rest)

def isJsonWsChar (c : Char) : Bool := c = ' ' || c = '\t' || c = '\n' || c = '\r'

def skipWs (cs : List Char) : List Char := cs.dropWhile isJsonWsChar

def lbraceChar : Char := Char.ofNat 123

def rbraceChar : Char := Char.ofNat 125

mutual

/-- Recursive-descent JSON value parser (fuel-indexed). -/
def parseVal (fuel : Nat) (cs : List Char) : Option (Json × List Char) :=
  match fuel with
  | 0 => none
  | fuel + 1 =>
    let cs := skipWs cs
    match cs with
    | [] => none
    | c :: rest =>
      if c = 'n' then
        if listIsPre "ull".data rest then some (.null, rest.drop 3) else none
      else if c = 't' then
        if listIsPre "rue".data rest then some (.bool true, rest.drop 3) else none
      else if c = 'f' then
        if listIsPre "alse".data rest then some (.bool false, rest.drop 4) else none
      else if c = '"' then
        match lexStr rest with
        | some (s, r) => some (.str s, r)
        | none => none
      else if c = '[' then
        let r := skipWs rest
        match r with
        | ']' :: r' => some (.arr [], r')
        | _ =>
          match parseElems fuel r with
          | some (es, r') => some (.arr es, r')
          | none => none
      else if c = lbraceChar then
        let r := skipWs rest
        match r with
        | b :: r' =>
          if b = rbraceChar then some (.obj [], r')
          else
            match parseMembers fuel r with
            | some (fs, r') =>
              -- later duplicate keys overwrite earlier ones in place,
              -- as in a Python dict literal built by json.loads
              some (.obj (fs.foldl (fun acc p => setKey acc p.1 p.2) []), r')
            | none => none
        | [] => none
      else if c = '-' || isJsonDigit c then
        match lexInt (c :: rest) with
        | some (n, r) => some (.num n, r)
        | none => none
      else none

/-- Parse one or more comma-separated array elements and the closing bracket. -/
def parseElems (fuel : Nat) (cs : List Char) : Option (List Json × List Char) :=
  match fuel with
  | 0 => none
  | fuel + 1 =>
    match parseVal fuel cs with
    | none => none
    | some (v, rest) =>
      match skipWs rest with
      | ']' :: r => some ([v], r)
      | ',' :: r =>
        match parseElems fuel r with
        | some (vs, r') => some (v :: vs, r')
        | none => none
      | _ => none

/-- Parse one or more comma-separated object members and the closing brace. -/
def parseMembers (fuel : Nat) (cs : List Char) :
    Option (List (String × Json) × List Char) :=
  match fuel with
  | 0 => none
  | fuel + 1 =>
    match skipWs cs with
    | '"' :: r =>
      match lexStr r with
      | none => none
      | some (k, r1) =>
        match skipWs r1 with
        | ':' :: r2 =>
          match parseVal fuel r2 with
          | none => none
          | some (v, r3) =>
            match skipWs r3 with
            | c :: r4 =>
              if c = rbraceChar then some ([(k, v)], r4)
              else if c = ',' then
                match parseMembers fuel r4 with
                | some (fs, r5) => some ((k, v) :: fs, r5)
                | none => none
              else none
            | [] => none
        | _ => none
    | _ => none

end

/-- `json.loads` on the modelled grammar: parse one value, tolerate
surrounding whitespace, reject trailing garbage. -/
def jparse (s : String) : Option Json :=
  match parseVal (4 * s.length + 16) s.data with
  | some (v, rest) => if skipWs rest = [] then some v else none
  | none => none

/-! ### Python `str()` / `repr()` on JSON-like values (used by the listing
coercion for list/dict values; string `repr` quoting is modelled without
escape sequences, which agrees with Python on quote-free text). -/

def sqChar : Char := Char.ofNat 39

mutual

def pyRepr : Json → String
  | .null => "None"
  | .bool true => "True"
  | .bool false => "False"
  | .num n => toString n
  | .str s => String.singleton sqChar ++ s ++ String.singleton sqChar
  | .arr es => "[" ++ pyReprList es ++ "]"
  | .obj fs =>
    String.singleton lbraceChar ++ pyReprFields fs ++ String.singleton rbraceChar

def pyReprList : List Json → String
  | [] => ""
  | [x] => pyRepr x
  | x :: xs => pyRepr x ++ ", " ++ pyReprList xs

def pyReprFields : List (String × Json) → String
  | [] => ""
  | [(k, v)] => String.singleton sqChar ++ k ++ String.singleton sqChar ++ ": " ++ pyRepr v
  | (k, v) :: xs =>
    String.singleton sqChar ++ k ++ String.singleton sqChar ++ ": " ++ pyRepr v
      ++ ", " ++ pyReprFields xs

end

/-- Python `str()` of a JSON-like value. -/
def pyStr : Json → String
  | .str s => s
  | j => pyRepr j

/-! ### Extraction client (`app/services/gemini_service.py`) -/

/-- `_parse_or_raw` (gemini_service.py lines 80-85): strict parse first,
else wrap the raw text. -/
def parse_or_raw (response_text : String) : Json :=
  match jparse response_text with
  | some j => j
  | none => .obj [("raw_response", .str response_text)]

theorem length_dropWhile_le (p : Char → Bool) (l : List Char) :
    (l.dropWhile p).length ≤ l.length := by
  induction l with
  | nil => simp
  | cons a l ih =>
    rw [List.dropWhile_cons]
    split
    · exact le_trans ih (Nat.le_succ _)
    · exact le_refl _

/-- The text removed after one matched fence: the regex
`re.sub(r"<fence>(?:json)?\s*", "", raw, flags=IGNORECASE)` consumes the
three backticks (already consumed by the caller), an optional
case-insensitive `json` tag, and any following whitespace. `cs` is the text
after the first backtick of the match. -/
def afterFence (cs : List Char) : List Char :=
  (if listIsPre "json".data (((cs.drop 2).take 4).map pyLowerChar)
   then (cs.drop 2).drop 4 else cs.drop 2).dropWhile isPyWs

theorem afterFence_length_le (cs : List Char) : (afterFence cs).length ≤ cs.length := by
  unfold afterFence
  refine le_trans (length_dropWhile_le _ _) ?_
  split <;> simp only [List.length_drop] <;> omega

/-- Global substitution `re.sub(r"<fence>(?:json)?\s*", "", raw, IGNORECASE)`
where `<fence>` is three backticks: every occurrence anywhere in the text is
removed, scanning left to right (`fuel` as in `removeWordGo`: each step
consumes at least one character). -/
def stripFencesGo : Nat → List Char → List Char
  | 0, l => l
  | _ + 1, [] => []
  | fuel + 1, c :: cs =>
    if listIsPre "```".data (c :: cs) then
      stripFencesGo fuel (afterFence cs)
    else
      c :: stripFencesGo fuel cs

def stripFences (cs : List Char) : List Char :=
  stripFencesGo (cs.length + 1) cs

/-- `re.sub(r"\s*<fence>$", "", clean)`: remove a trailing fence (and the
whitespace before it); `$` matches at the end or just before one final
newline. -/
def stripTrailingFence (cs : List Char) : List Char :=
  let body := if cs.getLast? = some '\n' then cs.dropLast else cs
  let tail : List Char := if cs.getLast? = some '\n' then ['\n'] else []
  if listIsPre "```".data body.reverse then
    (((body.take (body.length - 3)).reverse.dropWhile isPyWs).reverse) ++ tail
  else cs

/-- `_clean_gemini_response` (gemini_service.py lines 87-101): if the parsed
result is a dict containing `raw_response`, strip markdown fences from that
text, trim it, and re-parse; wrap the cleaned text again if it still does
not parse. -/
def cleanedText (raw : String) : String :=
  pyStrip (String.mk (stripTrailingFence (stripFences raw.data)))

def clean_gemini_response (result : Json) : Json :=
  match result with
  | .obj fields =>
    match jLookup fields "raw_response" with
    | some v =>
      match jparse (cleanedText (pyStr v)) with
      | some j => j
      | none => .obj [("raw_response", .str (cleanedText (pyStr v)))]
    | none => result
  | _ => result

/-! #### Stock-exchange-listing normalization (gemini_service.py 103-169) -/

/-- Delimiter class of `re.split(r"[,;/\\\n]+|\s{2,}|\s", cleaned)`. -/
def isSplitClass (c : Char) : Bool :=
  c = ',' || c = ';' || c = '/' || c = '\\' || c = '\n'

/-- The splitter of `re.split(r"[,;/\\\n]+|\s{2,}|\s", cleaned)`: a maximal
run of class characters, a run of two or more whitespace characters, or a
single whitespace character each terminate the current token (`fuel` as in
`removeWordGo`: each step consumes at least one character). -/
def splitTokensGo : Nat → List Char → List Char → List (List Char)
  | 0, buf, _ => [buf.reverse]
  | _ + 1, buf, [] => [buf.reverse]
  | fuel + 1, buf, c :: cs =>
    if isSplitClass c then
      buf.reverse :: splitTokensGo fuel [] (cs.dropWhile isSplitClass)
    else if isPyWs c then
      if (match cs with | d :: _ => isPyWs d | [] => false) then
        buf.reverse :: splitTokensGo fuel [] (cs.dropWhile isPyWs)
      else
        buf.reverse :: splitTokensGo fuel [] cs
    else
      splitTokensGo fuel (c :: buf) cs

def pySplitDelims (s : String) : List String :=
  (splitTokensGo (s.data.length + 1) [] s.data).map String.mk

/-- The `others` accumulation loop (gemini_service.py 146-153): strip each
part, skip empties, uppercase, drop BSE/NSE, de-duplicate in first-seen
order. -/
def buildOthersStep (acc : List String) (p : String) : List String :=
  let token := pyStrip p
  if token = "" then acc
  else
    let tu := pyUpper token
    if tu = "BSE" || tu = "NSE" then acc
    else if acc.contains tu then acc
    else acc ++ [tu]

def buildOthers (parts : List String) : List String :=
  parts.foldl buildOthersStep []

/-- The canonical token(s) (gemini_service.py 155-161). -/
def canonResult (bse nse : Bool) : List String :=
  if bse && nse then ["BSENSE"]
  else if bse then ["BSE"]
  else if nse then ["NSE"]
  else []

/-- The final append loop (gemini_service.py 163-165). -/
def appendOthersStep (acc : List String) (o : String) : List String :=
  if o ≠ "" && !(acc.contains o) then acc ++ [o] else acc

def appendOthers (result others : List String) : List String :=
  others.foldl appendOthersStep result

def bseDetected (lowered : String) : Bool :=
  hasWordSub lowered "bse" || strContains lowered "bombay"

def nseDetected (lowered : String) : Bool :=
  hasWordSub lowered "nse" || strContains lowered "national stock exchange"

/-- The token list the normalization joins with single spaces
(gemini_service.py 135-165), from the raw coerced string. -/
def listingTokens (raw : String) : List String :=
  let lowered := pyLower (pyStrip raw)
  let cleaned := removeSubAll lowered "bombay stock exchange"
  let cleaned := removeWordAll cleaned "bse"
  let cleaned := removeSubAll cleaned "national stock exchange"
  let cleaned := removeWordAll cleaned "nse"
  appendOthers (canonResult (bseDetected lowered) (nseDetected lowered))
    (buildOthers (pySplitDelims cleaned))

/-- The string stored back into `stock_exchange_listing` for a raw coerced
value (gemini_service.py 129-167): empty stripped input maps to `""`,
otherwise the space-join of `listingTokens`. -/
def normalize_listing_core (raw : String) : String :=
  if pyStrip raw = "" then "" else String.intercalate " " (listingTokens raw)

/-- `_normalize_stock_exchange_listing` (gemini_service.py 103-169). -/
def normalize_stock_exchange_listing (result : Json) : Json :=
  match result with
  | .obj fields =>
    match jLookup fields "entity_details" with
    | some (.obj ent) =>
      match jLookup ent "stock_exchange_listing" with
      | none => result
      | some .null => result
      | some v =>
        let raw : String :=
          match v with
          | .arr xs => String.intercalate " " (xs.map pyStr)
          | .obj fs => String.intercalate " " (fs.map (fun p => pyStr p.2))
          | _ => pyStr v
        .obj (setKey fields "entity_details"
          (.obj (setKey ent "stock_exchange_listing" (.str (normalize_listing_core raw)))))
    | _ => result
  | _ => result

/-- The response-handling pipeline applied to the successful attempt's text
(gemini_service.py 56-58). -/
def gemini_pipeline (text : String) : Json :=
  normalize_stock_exchange_listing (clean_gemini_response (parse_or_raw text))

/-- `_is_retryable_error` marker list (gemini_service.py 171-186). -/
def retry_markers : List String :=
  ["winerror 10054", "forcibly closed by the remote host", "connection reset",
   "timed out", "timeout", "temporarily unavailable", "service unavailable",
   "too many requests", "429", "503", "500"]

def is_retryable_error (msg : String) : Bool :=
  retry_markers.any (fun m => strContains (pyLower msg) m)

/-- Outcome of one `generate_content` call: an exception (with its `str`),
or a response whose `.text` is the given string. -/
inductive GenResult where
  | err (msg : String)
  | ok (text : String)

/-- Observable behaviour of one `extract_section_a` call: the value
returned / exception raised, the backoff sleeps performed (in tenths of a
second: `1.5s * 2^(attempt-1)` is `15 * 2^(attempt-1)` tenths), and how
many attempts were made. -/
structure ExtractRun where
  result : Except String Json
  sleepsTenths : List Nat
  attempts : Nat

/-- One loop attempt: the `generate_content` outcome, with an empty
response text turned into the `Gemini returned empty response` error
(gemini_service.py 49-50). `gen k` is the outcome of attempt number `k`
(1-based). -/
def attemptOutcome (gen : Nat → GenResult) (attempt : Nat) : Except String String :=
  match gen attempt with
  | .err m => .error m
  | .ok t => if t = "" then .error "Gemini returned empty response" else .ok t

/-- The retry loop of `extract_section_a` (gemini_service.py 33-74). `fuel`
counts the iterations left in `range(1, max_attempts + 1)`; on exhaustion
the code falls to the final raise with `last_error = None` only when
`max_attempts = 0`. -/
def extractLoop (gen : Nat → GenResult) (maxAttempts : Nat) :
    Nat → Nat → List Nat → Nat → ExtractRun
  | _, 0, sleeps, count =>
    ⟨.error "Gemini extraction failed: None", sleeps.reverse, count⟩
  | attempt, fuel + 1, sleeps, count =>
    match attemptOutcome gen attempt with
    | .ok t => ⟨.ok (gemini_pipeline t), sleeps.reverse, count + 1⟩
    | .error e =>
      if maxAttempts ≤ attempt || !(is_retryable_error e) then
        ⟨.error ("Gemini extraction failed: " ++ e), sleeps.reverse, count + 1⟩
      else
        extractLoop gen maxAttempts (attempt + 1) fuel
          ((15 * 2 ^ (attempt - 1)) :: sleeps) (count + 1)

/-- `extract_section_a` (gemini_service.py 22-74): empty input fails fast,
otherwise up to `max_attempts = 3` attempts with backoff
`1.5s * 2^(attempt-1)` between retried attempts. -/
def extract_section_a (file_bytes : List Nat) (gen : Nat → GenResult) : ExtractRun :=
  if file_bytes = [] then ⟨.error "Empty PDF bytes provided", [], 0⟩
  else extractLoop gen 3 1 3 [] 0

/-! ### Blob store client (`app/services/storage_service.py`) -/

/-- `_is_duplicate_error` (storage_service.py 37-45). -/
def dup_markers : List String :=
  ["already exists", "duplicate", "resource already exists",
   "the resource already exists", "409"]

def is_duplicate_error (msg : String) : Bool :=
  dup_markers.any (fun m => strContains (pyLower msg) m)

/-- Outcome of one `supabase...upload` attempt: an exception (with its
`str`), or success, carrying the public url the subsequent
`get_public_url` extraction yields (possibly `None`). -/
inductive StoreAttempt where
  | ok (publicUrl : Option String)
  | err (msg : String)

/-- Exceptions `_sync_upload_with_retries` can raise. -/
inductive StorageErr where
  | dupFile (file_name : String) (public_url : Option String)
  | exc (msg : String)

/-- Observable behaviour of one `_sync_upload_with_retries` call: result,
sleeps (seconds), attempts made. -/
structure StoreRun where
  result : Except StorageErr (Option String)
  sleepsSeconds : List Nat
  attempts : Nat

/-- The retry loop of `_sync_upload_with_retries` (storage_service.py
48-62): `store i` is the outcome of 0-based attempt `i`; duplicate-signature
failures raise `DuplicateFileError` at once (with the probed public url
`pubUrl`), other failures back off `backoff * 2^i` seconds and retry, and
the last failure is re-raised. Falling out of the loop (only possible when
`attempts = 0`) returns Python `None`. -/
def uploadLoop (name : String) (store : Nat → StoreAttempt) (pubUrl : Option String)
    (attempts backoff : Nat) : Nat → Nat → List Nat → Nat → StoreRun
  | _, 0, sleeps, count => ⟨.ok none, sleeps.reverse, count⟩
  | i, fuel + 1, sleeps, count =>
    match store i with
    | .ok url => ⟨.ok url, sleeps.reverse, count + 1⟩
    | .err m =>
      if is_duplicate_error m then
        ⟨.error (.dupFile name pubUrl), sleeps.reverse, count + 1⟩
      else if i < attempts - 1 then
        uploadLoop name store pubUrl attempts backoff (i + 1) fuel
          ((backoff * 2 ^ i) :: sleeps) (count + 1)
      else
        ⟨.error (.exc m), sleeps.reverse, count + 1⟩

/-- `_sync_upload_with_retries` (storage_service.py 48-62) with its default
`attempts = 3`, `backoff = 1.0`. -/
def sync_upload_with_retries (name : String) (store : Nat → StoreAttempt)
    (pubUrl : Option String) (attempts : Nat := 3) (backoff : Nat := 1) : StoreRun :=
  uploadLoop name store pubUrl attempts backoff 0 attempts [] 0

/-- Outcome of `StorageService.upload_file` (storage_service.py 81-97) as
seen by its caller: the url, a re-raised `DuplicateFileError`, or an
`HTTPException(500, ...)` wrapping any other failure. -/
inductive UploadFileResult where
  | ok (url : Option String)
  | dupFile
  | httpErr (detail : String)

/-- HTTP error surfaced to the client (`fastapi.HTTPException`). -/
structure HErr where
  code : Nat
  detail : String
  deriving DecidableEq

/-- `StorageService.upload_file` (storage_service.py 81-97) on top of the
retry loop. -/
def upload_file (name : String) (store : Nat → StoreAttempt)
    (pubUrl : Option String) : UploadFileResult :=
  match (sync_upload_with_retries name store pubUrl).result with
  | .ok url => .ok url
  | .error (.dupFile _ _) => .dupFile
  | .error (.exc m) => .httpErr ("Supabase storage error: " ++ m)

/-! ### Export flattener (`app/services/excel_service.py`) -/

/-- A spreadsheet row: a Python dict from column name to cell value, in
insertion order (read with `jLookup`, written with `setKey`). -/
abbrev Row := List (String × Json)

def rowGet (r : Row) (k : String) : Option Json := jLookup r k

def blankAll (r : Row) : Row := r.map (fun p => (p.1, Json.str ""))

/-- Python `dict.update`: assign each pair of `u` into `r` in order. -/
def rowUpdate (r u : Row) : Row :=
  u.foldl (fun acc p => setKey acc p.1 p.2) r

/-- One entry of `holding_subsidiaries`: a dict whose relevant keys are
`name`, `type` and `percent_shares_held`; `none` models an absent key. The
`type` value is absent-or-string (a non-string `type` would crash the
Python `sorted` call, so such payloads are outside the model). -/
structure Holding where
  name : Option Json := none
  type_ : Option String := none
  percent_shares_held : Option Json := none

/-- One risk/opportunity item dict; `none` models an absent key. -/
structure RiskItem where
  material_issue : Option Json := none
  risk_or_opportunity : Option Json := none
  rationale : Option Json := none
  financial_implications : Option Json := none
  approach_to_adapt_mitigate : Option Json := none

inductive RiskCat where
  | environment
  | social
  | governance

/-- One element of a list-shaped `material_risks_opportunities`: a dict that
may carry list-valued category keys (`none` models absent-or-non-list) and
may itself look like an item (`hasItemKeys` is the
`any(k in el for k in ("material_issue", "rationale", "risk_or_opportunity"))`
test, `asItem` its item fields). -/
structure RiskEl where
  environment : Option (List RiskItem) := none
  social : Option (List RiskItem) := none
  governance : Option (List RiskItem) := none
  hasItemKeys : Bool := false
  asItem : RiskItem := {}

/-- Shapes of `material_risks_opportunities` recognized by
`_items_for_category` (excel_service.py 228-242): a dict of category
arrays (`none` models absent-or-null-or-falsy, for which `.get(c, []) or []`
produces `[]`), a list of per-category objects (`none` elements model
non-dict entries, which are skipped), or any other value. -/
inductive RisksObj where
  | dict (environment social governance : Option (List RiskItem))
  | list (els : List (Option RiskEl))
  | other

def catField (e : RiskEl) : RiskCat → Option (List RiskItem)
  | .environment => e.environment
  | .social => e.social
  | .governance => e.governance

/-- `_items_for_category` (excel_service.py 228-242). -/
def items_for_category (r : RisksObj) (c : RiskCat) : List RiskItem :=
  match r with
  | .dict e s g =>
    (match c with
     | .environment => e
     | .social => s
     | .governance => g).getD []
  | .list els =>
    els.flatMap (fun o =>
      match o with
      | none => []
      | some el =>
        match catField el c with
        | some l => l
        | none => if el.hasItemKeys then [el.asItem] else [])
  | .other => []

/-- Python `str.capitalize`. -/
def pyCapitalize (s : String) : String :=
  match s.data with
  | [] => ""
  | c :: cs => String.mk (pyUpperChar c :: cs.map pyLowerChar)

/-- The dict appended to `risk_rows` for one item (excel_service.py
246-253). -/
def riskRowOf (catName : String) (it : RiskItem) : Row :=
  [("26. Category", .str (pyCapitalize catName)),
   ("26. Material Issue", it.material_issue.getD .null),
   ("26. Risk/Opportunity", it.risk_or_opportunity.getD .null),
   ("26. Rationale", it.rationale.getD .null),
   ("26. Financial Impact", it.financial_implications.getD .null),
   ("26. Approach to Adapt/Mitigate", it.approach_to_adapt_mitigate.getD .null)]

/-- The `risk_rows` list (excel_service.py 244-253): environment, social,
governance category items in that fixed order. -/
def risk_rows_of (r : RisksObj) : List Row :=
  (items_for_category r .environment).map (riskRowOf "environment") ++
  (items_for_category r .social).map (riskRowOf "social") ++
  (items_for_category r .governance).map (riskRowOf "governance")

/-- The exact-match table of `map_group_entity_type` (excel_service.py
37-51). -/
def group_entity_mapping : List (String × String) :=
  [("associate", "Associate Company"),
   ("associate company", "Associate Company"),
   ("joint venture", "Joint Venture"),
   ("subsidiary", "Subsidiary Company"),
   ("subsidiary company", "Subsidiary Company"),
   ("material wholly owned subsidiary", "Wholly Owned Subsidiary"),
   ("step down wholly owned subsidiary", "Wholly Owned Subsidiary"),
   ("wholly owned subsidiary", "Wholly Owned Subsidiary"),
   ("holding", "Holding Company"),
   ("intermediary holding", "Intermediary Holding Company"),
   ("ultimate holding", "Ultimate Holding Company"),
   ("step-down subsidiary", "Step-Down Subsidiary"),
   ("subsidiary (incorporated under section 8 of the companies act, 2013)",
    "Subsidiary Company")]

def tableLookup : List (String × String) → String → Option String
  | [], _ => none
  | (k, v) :: rest, key => if k = key then some v else tableLookup rest key

/-- `ExcelService.map_group_entity_type` (excel_service.py 32-68). -/
def map_group_entity_type (raw : Option String) : String :=
  match raw with
  | none => ""
  | some r =>
    if r = "" then ""
    else
      let key := pyLower (pyStrip r)
      match tableLookup group_entity_mapping key with
      | some v => v
      | none =>
        if strContains key "wholly owned" then "Wholly Owned Subsidiary"
        else if strContains key "ultimate holding" then "Ultimate Holding Company"
        else if strContains key "intermediary" && strContains key "holding" then
          "Intermediary Holding Company"
        else if strContains key "associate" then "Associate Company"
        else if strContains key "joint" && strContains key "venture" then "Joint Venture"
        else if key = "holding" || strEnds key " holding" then "Holding Company"
        else if strContains key "subsidiary" then "Subsidiary Company"
        else pyStrip r

/-- The data fields of one record that `expand_all` reads. -/
structure RecData where
  holding_subsidiaries : List Holding := []
  material_risks_opportunities : RisksObj := .dict none none none

/-- The sort key `lambda x: x.get("type", "")` (excel_service.py 224). -/
def holdKey (h : Holding) : String := h.type_.getD ""

/-- Python string `<=`: lexicographic comparison by code point. -/
def listLe : List Char → List Char → Bool
  | [], _ => true
  | _ :: _, [] => false
  | a :: as, b :: bs =>
    if a < b then true else if b < a then false else listLe as bs

def pyStrLe (a b : String) : Bool := listLe a.data b.data

/-- The ordering `sorted` compares holdings by (ascending by key string). -/
def holdLe (a b : Holding) : Prop := pyStrLe (holdKey a) (holdKey b) = true

instance : DecidableRel holdLe :=
  fun a b => inferInstanceAs (Decidable (pyStrLe (holdKey a) (holdKey b) = true))

theorem listLe_cons_iff (x y : Char) (xs ys : List Char) :
    listLe (x :: xs) (y :: ys) = true ↔ x < y ∨ (x = y ∧ listLe xs ys = true) := by
  show (if x < y then true else if y < x then false else listLe xs ys) = true ↔ _
  by_cases h1 : x < y
  · simp [h1]
  · by_cases h2 : y < x
    · have hne : x ≠ y := fun he => absurd (he ▸ h2) (lt_irrefl x)
      simp [h1, h2, hne]
    · have hxy : x = y := le_antisymm (not_lt.mp h2) (not_lt.mp h1)
      simp [h1, h2, hxy]

theorem listLe_total : ∀ a b : List Char, listLe a b = true ∨ listLe b a = true := by
  intro a
  induction a with
  | nil => intro b; left; rfl
  | cons x xs ih =>
    intro b
    cases b with
    | nil => right; rfl
    | cons y ys =>
      rcases lt_trichotomy x y with h | h | h
      · left; exact (listLe_cons_iff _ _ _ _).mpr (Or.inl h)
      · rcases ih ys with hl | hl
        · left; exact (listLe_cons_iff _ _ _ _).mpr (Or.inr ⟨h, hl⟩)
        · right; exact (listLe_cons_iff _ _ _ _).mpr (Or.inr ⟨h.symm, hl⟩)
      · right; exact (listLe_cons_iff _ _ _ _).mpr (Or.inl h)

theorem listLe_trans : ∀ a b c : List Char,
    listLe a b = true → listLe b c = true → listLe a c = true := by
  intro a
  induction a with
  | nil => intro b c _ _; rfl
  | cons x xs ih =>
    intro b c hab hbc
    cases b with
    | nil => cases hab
    | cons y ys =>
      cases c with
      | nil => cases hbc
      | cons z zs =>
        rcases (listLe_cons_iff _ _ _ _).mp hab with h1 | ⟨rfl, h1⟩
        · rcases (listLe_cons_iff _ _ _ _).mp hbc with h2 | ⟨rfl, h2⟩
          · exact (listLe_cons_iff _ _ _ _).mpr (Or.inl (lt_trans h1 h2))
          · exact (listLe_cons_iff _ _ _ _).mpr (Or.inl h1)
        · rcases (listLe_cons_iff _ _ _ _).mp hbc with h2 | ⟨rfl, h2⟩
          · exact (listLe_cons_iff _ _ _ _).mpr (Or.inl h2)
          · exact (listLe_cons_iff _ _ _ _).mpr (Or.inr ⟨rfl, ih _ _ h1 h2⟩)

instance : IsTotal Holding holdLe :=
  ⟨fun a b => listLe_total (holdKey a).data (holdKey b).data⟩

instance : IsTrans Holding holdLe :=
  ⟨fun _ _ _ hab hbc => listLe_trans _ _ _ hab hbc⟩

/-- Python `sorted(..., key=lambda x: x.get("type", ""))` (excel_service.py
224). Python's sort is the stable ascending sort by the key (strings
compared by code point); any stable ascending sort computes the identical
list, and insertion sort (inserting from the right, strictly before the
first element with a key `≥` the inserted key) is stable. -/
def sortedHoldings (l : List Holding) : List Holding :=
  l.insertionSort holdLe

def cinColumn : String := "1. Corporate Identity Number (CIN)"

def nameColumn : String := "2. Name of Listed Entity"

/-- Rows past the first: all base columns blanked, then the two identity
columns restored from the base row (excel_service.py 262-264). -/
def identityRow (base_row : Row) : Row :=
  setKey (setKey (blankAll base_row)
    cinColumn ((rowGet base_row cinColumn).getD .null))
    nameColumn ((rowGet base_row nameColumn).getD .null)

/-- The four `23.` assignments overlaying one holding entity
(excel_service.py 266-271). -/
def holdingOverlay (row : Row) (h : Holding) : Row :=
  setKey (setKey (setKey (setKey row
    "23. Group Entity" (h.name.getD .null))
    "23. Group Entity Type" ((h.type_.map Json.str).getD .null))
    "23. Mapped Group Entity Type" (.str (map_group_entity_type h.type_)))
    "23. % Shares" (h.percent_shares_held.getD .null)

/-- The body of the `for i in range(max_rows)` loop of `expand_all`
(excel_service.py 258-276), producing row `i`. -/
def expandRow (holdings : List Holding) (risk_rows : List Row) (base_row : Row)
    (i : Nat) : Row :=
  let row := if i = 0 then base_row else identityRow base_row
  let row := match holdings[i]? with
    | some h => holdingOverlay row h
    | none => row
  match risk_rows[i]? with
  | some rr => rowUpdate row rr
  | none => row

/-- `ExcelService.expand_all` (excel_service.py 222-278). -/
def expand_all (data : RecData) (base_row : Row) : List Row :=
  let holdings := sortedHoldings data.holding_subsidiaries
  let risk_rows := risk_rows_of data.material_risks_opportunities
  (List.range (max 1 (max holdings.length risk_rows.length))).map
    (expandRow holdings risk_rows base_row)

/-! ### Export endpoint (`app/routes/excel.py`) -/

/-- A stored document record as the export endpoint reads it. `id` is the
canonical string form of its ObjectId. -/
structure ExDoc where
  id : String
  user_id : String
  status : String
  extracted_json : Option Json := none

def isHexDigit (c : Char) : Bool :=
  isJsonDigit c || ('a' ≤ c && c ≤ 'f') || ('A' ≤ c && c ≤ 'F')

def validObjectId (s : String) : Bool :=
  s.length = 24 && s.data.all isHexDigit

/-- bson `ObjectId(s)` for a string argument: accepts exactly 24 hex
characters of either case (`bytes.fromhex` is case-insensitive) and its
`str()` form is the lowercase hex string; an ObjectId is modelled by that
canonical lowercase form. -/
def parseObjectId (s : String) : Option String :=
  if validObjectId s then some (pyLower s) else none

/-- The Mongo filter `extracted_json: {"$exists": True, "$ne": None}`. -/
def payloadPresent : Option Json → Bool
  | some .null => false
  | some _ => true
  | none => false

/-- The `find` filter of `generate_excel` (excel.py 24-29). -/
def exDocMatches (u : String) (oids : List String) (d : ExDoc) : Bool :=
  oids.contains d.id && d.user_id = u && d.status = "completed" &&
    payloadPresent d.extracted_json

/-- `[ObjectId(i) for i in request.document_ids]` (excel.py 19): all-or-
nothing parsing of the requested id list. -/
def parseAllIds : List String → Option (List String)
  | [] => some []
  | i :: rest =>
    match parseObjectId i with
    | none => none
    | some o =>
      match parseAllIds rest with
      | none => none
      | some os => some (o :: os)

/-- `generate_excel` (excel.py 14-50), up to the payload list handed to
`ExcelService.generate_excel`: the streamed spreadsheet is the
concatenation of each payload's flattened rows in the order of this list,
so per-document row-group order equals this list's order. `db` is the
database contents in the cursor's return order. -/
def generate_excel (userSub : String) (document_ids : List String)
    (db : List ExDoc) : Except HErr (List Json) :=
  if document_ids.isEmpty then .error ⟨400, "document_ids is required"⟩
  else
    match parseAllIds document_ids with
    | none => .error ⟨400, "one or more invalid document_ids"⟩
    | some object_ids =>
      let docs := db.filter (exDocMatches userSub object_ids)
      let by_id := docs.foldl (fun acc d => setKey acc d.id (d.extracted_json.getD .null)) []
      let json_docs := document_ids.filterMap (fun i => jLookup by_id i)
      if json_docs.isEmpty then
        .error ⟨404, "No completed documents found for the provided document_ids"⟩
      else .ok json_docs

/-! ### Ingestion orchestrator (`app/routes/upload.py`) -/

/-- One multipart upload: FastAPI `UploadFile.filename` may be `None`. -/
structure UploadedFile where
  filename : Option String
  bytes : List Nat

/-- A persisted document record. `parsedAt` models presence of the
`parsed_at` timestamp. `none` on the payload fields models an absent key
(the created record carries neither key). -/
structure DocRecord where
  id : String
  user_id : String
  file_name : String
  file_url : String
  status : String
  extracted_json : Option Json := none
  error_message : Option String := none
  parsedAt : Bool := false

/-- The record inserted at upload time (upload.py 594-601). -/
def mkDocument (id user_id file_name file_url : String) : DocRecord :=
  { id := id, user_id := user_id, file_name := file_name, file_url := file_url,
    status := "pending" }

structure Created where
  document_id : String
  file_url : String
  file_name : String
  deriving DecidableEq

/-- The endpoint's JSON response lists (upload.py 609-614). -/
structure UploadResp where
  documents : List Created
  skipped_duplicates : List String
  skipped_invalid : List String
  deriving DecidableEq

/-- Observable system state threaded through the batch loop: the documents
collection, the id counter for fresh ObjectIds, the scheduled background
tasks (record id and file bytes), and the storage paths passed to
`StorageService.upload_file`. -/
structure UState where
  db : List DocRecord := []
  nextId : Nat := 0
  tasks : List (String × List Nat) := []
  uploadCalls : List String := []

/-- `file_name.lower().endswith(".pdf")` (upload.py 561). -/
def pdfNameOk (file_name : String) : Bool :=
  strEnds (pyLower file_name) ".pdf"

/-- The per-file loop of `upload_pdfs` (upload.py 558-607). `upFn` gives the
outcome of `StorageService.upload_file` for each storage path. A raised
`HTTPException` aborts the loop and is re-raised by the endpoint
(upload.py 616-617). -/
def processFiles (user : String) (upFn : String → UploadFileResult) :
    List UploadedFile → UState → Except HErr (UploadResp × UState)
  | [], st => .ok (⟨[], [], []⟩, st)
  | f :: rest, st =>
    let file_name := pyStrip (f.filename.getD "")
    if !(pdfNameOk file_name) then
      (fun p => ({ p.1 with skipped_invalid :=
          (if file_name = "" then "unknown" else file_name) :: p.1.skipped_invalid },
        p.2)) <$> processFiles user upFn rest st
    else if f.bytes = [] then
      (fun p => ({ p.1 with skipped_invalid := file_name :: p.1.skipped_invalid },
        p.2)) <$> processFiles user upFn rest st
    else if st.db.any (fun d => d.user_id = user && d.file_name = file_name) then
      (fun p => ({ p.1 with skipped_duplicates := file_name :: p.1.skipped_duplicates },
        p.2)) <$> processFiles user upFn rest st
    else
      let path := user ++ "_" ++ file_name
      let st1 := { st with uploadCalls := st.uploadCalls ++ [path] }
      match upFn path with
      | .dupFile =>
        (fun p => ({ p.1 with skipped_duplicates := file_name :: p.1.skipped_duplicates },
          p.2)) <$> processFiles user upFn rest st1
      | .httpErr detail => .error ⟨500, detail⟩
      | .ok url =>
        if url.getD "" = "" then
          processFiles user upFn rest st1
        else
          let doc_id := toString st1.nextId
          let st2 := { st1 with
            db := st1.db ++ [mkDocument doc_id user file_name (url.getD "")],
            nextId := st1.nextId + 1,
            tasks := st1.tasks ++ [(doc_id, f.bytes)] }
          (fun p => ({ p.1 with documents :=
              ⟨doc_id, url.getD "", file_name⟩ :: p.1.documents }, p.2)) <$>
            processFiles user upFn rest st2

/-- `upload_pdfs` (upload.py 510-621): merge the two multipart field names,
reject an empty batch, then run the per-file loop. -/
def upload_pdfs (user : String) (upFn : String → UploadFileResult)
    (files : List UploadedFile) (file : Option UploadedFile) (st : UState) :
    Except HErr (UploadResp × UState) :=
  let upload_list := files ++ file.toList
  if upload_list.isEmpty then .error ⟨400, "No files uploaded"⟩
  else processFiles user upFn upload_list st

/-- The `$set` document chosen by `_process_and_update` (upload.py 538-552)
from the extraction outcome (`str(e)` of the raised exception on failure). -/
inductive DocUpdate where
  | completed (payload : Json)
  | failed (msg : String)

def process_and_update (r : Except String Json) : DocUpdate :=
  match r with
  | .ok parsed => .completed parsed
  | .error e => .failed e

/-- Applying the `$set` update to the record (upload.py 541-554). -/
def apply_update (d : DocRecord) (u : DocUpdate) : DocRecord :=
  match u with
  | .completed p =>
    { d with status := "completed", extracted_json := some p, parsedAt := true }
  | .failed m =>
    { d with status := "failed", error_message := some m, parsedAt := true }

/-- `null`-ness of a stored field in the sense of the terminal-field
invariant: the field counts as set when present with a non-null value. -/
def jsonFieldSet : Option Json → Bool
  | some .null => false
  | some _ => true
  | none => false

/-! ### Helper lemmas on the dict operations -/

theorem jLookup_setKey_self (r : List (String × Json)) (k : String) (v : Json) :
    jLookup (setKey r k v) k = some v := by
  induction r with
  | nil => simp [setKey, jLookup]
  | cons p rest ih =>
    obtain ⟨k0, v0⟩ := p
    by_cases h : k0 = k
    · simp [setKey, h, jLookup]
    · simp [setKey, h, jLookup, ih]

theorem jLookup_setKey_ne (r : List (String × Json)) (k k' : String) (v : Json)
    (h : k' ≠ k) : jLookup (setKey r k v) k' = jLookup r k' := by
  have hk : k ≠ k' := fun he => h he.symm
  induction r with
  | nil => simp [setKey, jLookup, hk]
  | cons p rest ih =>
    obtain ⟨k0, v0⟩ := p
    by_cases h0 : k0 = k
    · subst h0
      simp [setKey, jLookup, hk]
    · simp [setKey, h0, jLookup, ih]

theorem jLookup_blankAll (r : Row) (k : String) :
    jLookup (blankAll r) k = (jLookup r k).map (fun _ => Json.str "") := by
  induction r with
  | nil => simp [blankAll, jLookup]
  | cons p rest ih =>
    obtain ⟨k0, v0⟩ := p
    by_cases h0 : k0 = k
    · simp [blankAll, jLookup, h0]
    · show jLookup ((k0, Json.str "") :: blankAll rest) k = _
      simp only [jLookup, h0, if_false]
      rw [ih]

theorem jLookup_rowUpdate_ne (u r : Row) (k : String)
    (h : ∀ p ∈ u, p.1 ≠ k) : jLookup (rowUpdate r u) k = jLookup r k := by
  induction u generalizing r with
  | nil => simp [rowUpdate]
  | cons q u' ih =>
    have hq : q.1 ≠ k := h q (by simp)
    have hrest : ∀ p ∈ u', p.1 ≠ k := fun p hp => h p (by simp [hp])
    show jLookup (rowUpdate (setKey r q.1 q.2) u') k = jLookup r k
    rw [ih _ hrest, jLookup_setKey_ne _ _ _ _ (fun he => hq he.symm)]

theorem jLookup_of_nodup_mem (r : Row) (k : String) (v : Json)
    (hn : (r.map Prod.fst).Nodup) (hm : (k, v) ∈ r) : jLookup r k = some v := by
  induction r with
  | nil => simp at hm
  | cons p rest ih =>
    obtain ⟨k0, v0⟩ := p
    have hn' : k0 ∉ rest.map Prod.fst ∧ (rest.map Prod.fst).Nodup := by
      simpa [List.nodup_cons] using hn
    rcases List.mem_cons.mp hm with he | hrest
    · cases he
      simp [jLookup]
    · have hk0 : k0 ≠ k := by
        intro he
        subst he
        exact hn'.1 (List.mem_map.mpr ⟨(k0, v), hrest, rfl⟩)
      simp only [jLookup, hk0, if_false]
      exact ih hn'.2 hrest

theorem jLookup_mem_isSome (r : Row) (k : String) (v : Json) (hm : (k, v) ∈ r) :
    ∃ w, jLookup r k = some w := by
  induction r with
  | nil => simp at hm
  | cons p rest ih =>
    obtain ⟨k0, v0⟩ := p
    by_cases h0 : k0 = k
    · exact ⟨v0, by simp [jLookup, h0]⟩
    · rcases List.mem_cons.mp hm with he | hrest
      · cases he; simp at h0
      · simpa [jLookup, h0] using ih hrest

/-! ### C6: extraction retry policy -/

theorem extractLoop_succ (gen : Nat → GenResult) (maxA att fuel count : Nat)
    (sleeps : List Nat) :
    extractLoop gen maxA att (fuel + 1) sleeps count =
      match attemptOutcome gen att with
      | .ok t => ⟨.ok (gemini_pipeline t), sleeps.reverse, count + 1⟩
      | .error e =>
        if maxA ≤ att || !(is_retryable_error e) then
          ⟨.error ("Gemini extraction failed: " ++ e), sleeps.reverse, count + 1⟩
        else
          extractLoop gen maxA (att + 1) fuel
            ((15 * 2 ^ (att - 1)) :: sleeps) (count + 1) := rfl

theorem extractLoop_attempts_le (gen : Nat → GenResult) (maxA : Nat) :
    ∀ fuel att sleeps count,
      (extractLoop gen maxA att fuel sleeps count).attempts ≤ count + fuel := by
  intro fuel
  induction fuel with
  | zero => intro att sleeps count; simp [extractLoop]
  | succ fuel ih =>
    intro att sleeps count
    rw [extractLoop_succ]
    cases attemptOutcome gen att with
    | ok t =>
      show count + 1 ≤ count + (fuel + 1)
      omega
    | error e =>
      simp only
      split
      · show count + 1 ≤ count + (fuel + 1)
        omega
      · have := ih (att + 1) ((15 * 2 ^ (att - 1)) :: sleeps) (count + 1)
        omega

theorem extract_three_eq (gen : Nat → GenResult) (bytes : List Nat) (hb : bytes ≠ []) :
    extract_section_a bytes gen = extractLoop gen 3 1 3 [] 0 := by
  unfold extract_section_a
  rw [if_neg hb]

/-- C6: the extraction call makes at most 3 attempts; a non-transient
failure aborts at once without retry; a transient failure on attempt `k`
sleeps `1.5s * 2^(k-1)` (modelled in tenths of a second: `15 * 2^(k-1)`)
before attempt `k+1`; and when all 3 attempts fail transiently the call
fails with the extraction-failed error carrying the last error's
description. -/
theorem C6_theorem :
    (∀ (bytes : List Nat) (gen : Nat → GenResult),
      (extract_section_a bytes gen).attempts ≤ 3) ∧
    (∀ (bytes : List Nat) (gen : Nat → GenResult) (e : String), bytes ≠ [] →
      gen 1 = .err e → is_retryable_error e = false →
      extract_section_a bytes gen =
        ⟨.error ("Gemini extraction failed: " ++ e), [], 1⟩) ∧
    (∀ (bytes : List Nat) (gen : Nat → GenResult) (e1 e2 : String), bytes ≠ [] →
      gen 1 = .err e1 → is_retryable_error e1 = true →
      gen 2 = .err e2 → is_retryable_error e2 = false →
      extract_section_a bytes gen =
        ⟨.error ("Gemini extraction failed: " ++ e2), [15], 2⟩) ∧
    (∀ (bytes : List Nat) (gen : Nat → GenResult) (e1 e2 e3 : String), bytes ≠ [] →
      gen 1 = .err e1 → is_retryable_error e1 = true →
      gen 2 = .err e2 → is_retryable_error e2 = true →
      gen 3 = .err e3 →
      extract_section_a bytes gen =
        ⟨.error ("Gemini extraction failed: " ++ e3), [15, 30], 3⟩) := by
  refine ⟨?_, ?_, ?_, ?_⟩
  · intro bytes gen
    unfold extract_section_a
    split
    · simp
    · exact extractLoop_attempts_le gen 3 3 1 [] 0
  · intro bytes gen e hb h1 hr
    rw [extract_three_eq gen bytes hb]
    rw [show (3 : Nat) = 2 + 1 from rfl]
    rw [extractLoop_succ]
    simp [attemptOutcome, h1, hr]
  · intro bytes gen e1 e2 hb h1 hr1 h2 hr2
    rw [extract_three_eq gen bytes hb]
    rw [show extractLoop gen 3 1 3 [] 0 = extractLoop gen 3 1 (2 + 1) [] 0 from rfl,
      extractLoop_succ]
    simp only [attemptOutcome, h1, hr1, Bool.not_true, Bool.or_false,
      decide_eq_true_eq]
    rw [if_neg (by omega)]
    rw [show extractLoop gen 3 2 2 [15 * 2 ^ (1 - 1)] 1 =
      extractLoop gen 3 2 (1 + 1) [15 * 2 ^ (1 - 1)] 1 from rfl, extractLoop_succ]
    simp [attemptOutcome, h2, hr2]
  · intro bytes gen e1 e2 e3 hb h1 hr1 h2 hr2 h3
    rw [extract_three_eq gen bytes hb]
    rw [show extractLoop gen 3 1 3 [] 0 = extractLoop gen 3 1 (2 + 1) [] 0 from rfl,
      extractLoop_succ]
    simp only [attemptOutcome, h1, hr1, Bool.not_true, Bool.or_false,
      decide_eq_true_eq]
    rw [if_neg (by omega)]
    rw [show extractLoop gen 3 2 2 [15 * 2 ^ (1 - 1)] 1 =
      extractLoop gen 3 2 (1 + 1) [15 * 2 ^ (1 - 1)] 1 from rfl, extractLoop_succ]
    simp only [attemptOutcome, h2, hr2, Bool.not_true, Bool.or_false,
      decide_eq_true_eq]
    rw [if_neg (by omega)]
    rw [show extractLoop gen 3 3 1 [15 * 2 ^ (2 - 1), 15 * 2 ^ (1 - 1)] 2 =
      extractLoop gen 3 3 (0 + 1) [15 * 2 ^ (2 - 1), 15 * 2 ^ (1 - 1)] 2 from rfl,
      extractLoop_succ]
    simp [attemptOutcome, h3]

/-- C6 witness: with a `503` failure on every attempt, the call makes
exactly 3 attempts, sleeps 1.5s then 3.0s, and fails with the last error
preserved. -/
theorem C6_witness :
    extract_section_a [0] (fun _ => .err "503 Service Unavailable") =
      ⟨.error "Gemini extraction failed: 503 Service Unavailable", [15, 30], 3⟩ := by
  have h := C6_theorem.2.2.2 [0] (fun _ => .err "503 Service Unavailable")
    "503 Service Unavailable" "503 Service Unavailable" "503 Service Unavailable"
    (by simp) rfl (by decide) rfl (by decide) rfl
  simpa using h

/-! ### C8: blob upload retry policy -/

theorem uploadLoop_succ (name : String) (store : Nat → StoreAttempt)
    (pub : Option String) (attempts backoff i fuel count : Nat) (sleeps : List Nat) :
    uploadLoop name store pub attempts backoff i (fuel + 1) sleeps count =
      match store i with
      | .ok url => ⟨.ok url, sleeps.reverse, count + 1⟩
      | .err m =>
        if is_duplicate_error m then
          ⟨.error (.dupFile name pub), sleeps.reverse, count + 1⟩
        else if i < attempts - 1 then
          uploadLoop name store pub attempts backoff (i + 1) fuel
            ((backoff * 2 ^ i) :: sleeps) (count + 1)
        else
          ⟨.error (.exc m), sleeps.reverse, count + 1⟩ := rfl

theorem uploadLoop_attempts_le (name : String) (store : Nat → StoreAttempt)
    (pub : Option String) (attempts backoff : Nat) :
    ∀ fuel i sleeps count,
      (uploadLoop name store pub attempts backoff i fuel sleeps count).attempts ≤
        count + fuel := by
  intro fuel
  induction fuel with
  | zero => intro i sleeps count; simp [uploadLoop]
  | succ fuel ih =>
    intro i sleeps count
    rw [uploadLoop_succ]
    cases store i with
    | ok url =>
      show count + 1 ≤ count + (fuel + 1)
      omega
    | err m =>
      simp only
      split
      · show count + 1 ≤ count + (fuel + 1)
        omega
      · split
        · have := ih (i + 1) ((backoff * 2 ^ i) :: sleeps) (count + 1)
          omega
        · show count + 1 ≤ count + (fuel + 1)
          omega

/-- C8: the blob upload makes at most 3 attempts; the backoff doubles from
1 second; the final failure re-raises the last underlying error; and a
duplicate-signature failure raises `DuplicateFileError` immediately on that
attempt, with no retry and no further upload attempt. -/
theorem C8_theorem :
    (∀ (name : String) (store : Nat → StoreAttempt) (pub : Option String),
      (sync_upload_with_retries name store pub).attempts ≤ 3) ∧
    (∀ (name : String) (store : Nat → StoreAttempt) (pub : Option String) (m : String),
      store 0 = .err m → is_duplicate_error m = true →
      sync_upload_with_retries name store pub =
        ⟨.error (.dupFile name pub), [], 1⟩) ∧
    (∀ (name : String) (store : Nat → StoreAttempt) (pub : Option String) (m0 m1 : String),
      store 0 = .err m0 → is_duplicate_error m0 = false →
      store 1 = .err m1 → is_duplicate_error m1 = true →
      sync_upload_with_retries name store pub =
        ⟨.error (.dupFile name pub), [1], 2⟩) ∧
    (∀ (name : String) (store : Nat → StoreAttempt) (pub : Option String) (m0 m1 m2 : String),
      store 0 = .err m0 → is_duplicate_error m0 = false →
      store 1 = .err m1 → is_duplicate_error m1 = false →
      store 2 = .err m2 → is_duplicate_error m2 = false →
      sync_upload_with_retries name store pub =
        ⟨.error (.exc m2), [1, 2], 3⟩) := by
  refine ⟨?_, ?_, ?_, ?_⟩
  · intro name store pub
    exact uploadLoop_attempts_le name store pub 3 1 3 0 [] 0
  · intro name store pub m h0 hd
    unfold sync_upload_with_retries
    rw [show uploadLoop name store pub 3 1 0 3 [] 0 =
      uploadLoop name store pub 3 1 0 (2 + 1) [] 0 from rfl, uploadLoop_succ, h0]
    simp [hd]
  · intro name store pub m0 m1 h0 hd0 h1 hd1
    unfold sync_upload_with_retries
    rw [show uploadLoop name store pub 3 1 0 3 [] 0 =
      uploadLoop name store pub 3 1 0 (2 + 1) [] 0 from rfl, uploadLoop_succ, h0]
    simp only [hd0, Bool.false_eq_true, if_false]
    rw [if_pos (by omega)]
    rw [show uploadLoop name store pub 3 1 1 2 [1 * 2 ^ 0] 1 =
      uploadLoop name store pub 3 1 1 (1 + 1) [1 * 2 ^ 0] 1 from rfl,
      uploadLoop_succ, h1]
    simp [hd1]
  · intro name store pub m0 m1 m2 h0 hd0 h1 hd1 h2 hd2
    unfold sync_upload_with_retries
    rw [show uploadLoop name store pub 3 1 0 3 [] 0 =
      uploadLoop name store pub 3 1 0 (2 + 1) [] 0 from rfl, uploadLoop_succ, h0]
    simp only [hd0, Bool.false_eq_true, if_false]
    rw [if_pos (by omega)]
    rw [show uploadLoop name store pub 3 1 1 2 [1 * 2 ^ 0] 1 =
      uploadLoop name store pub 3 1 1 (1 + 1) [1 * 2 ^ 0] 1 from rfl,
      uploadLoop_succ, h1]
    simp only [hd1, Bool.false_eq_true, if_false]
    rw [if_pos (by omega)]
    rw [show uploadLoop name store pub 3 1 2 1 [1 * 2 ^ 1, 1 * 2 ^ 0] 2 =
      uploadLoop name store pub 3 1 2 (0 + 1) [1 * 2 ^ 1, 1 * 2 ^ 0] 2 from rfl,
      uploadLoop_succ, h2]
    simp only [hd2, Bool.false_eq_true, if_false]
    rw [if_neg (by omega)]
    simp

/-- C8 witness: a store that reports the object key exists fails with the
duplicate condition after exactly one attempt; a store that keeps failing
transiently sleeps 1s then 2s and re-raises the last error. -/
theorem C8_witness :
    sync_upload_with_retries "u_f.pdf" (fun _ => .err "409 Duplicate") (some "p") =
      ⟨.error (.dupFile "u_f.pdf" (some "p")), [], 1⟩ ∧
    sync_upload_with_retries "u_f.pdf" (fun _ => .err "network down") none =
      ⟨.error (.exc "network down"), [1, 2], 3⟩ := by
  constructor
  · exact C8_theorem.2.1 "u_f.pdf" (fun _ => .err "409 Duplicate") (some "p")
      "409 Duplicate" rfl (by decide)
  · exact C8_theorem.2.2.2 "u_f.pdf" (fun _ => .err "network down") none
      "network down" "network down" "network down" rfl (by decide) rfl (by decide)
      rfl (by decide)

/-! ### C1: terminal-field invariant of the background update -/

/-- C1 counterexample: when the model's response text is the JSON literal
`null`, the whole extraction pipeline succeeds with the parsed value
`null`, so the background update writes `status = completed` with
`extracted_json` present but null — the record is completed while
`extracted_json` is not non-null, refuting the `non-null iff completed`
direction of the claim. -/
theorem C1_counterexample :
    (apply_update (mkDocument "d1" "u" "report.pdf" "url")
        (process_and_update (extract_section_a [1] (fun _ => .ok "null")).result)).status =
      "completed" ∧
    (apply_update (mkDocument "d1" "u" "report.pdf" "url")
        (process_and_update (extract_section_a [1] (fun _ => .ok "null")).result)).extracted_json =
      some Json.null ∧
    jsonFieldSet (apply_update (mkDocument "d1" "u" "report.pdf" "url")
        (process_and_update (extract_section_a [1] (fun _ => .ok "null")).result)).extracted_json =
      false ∧
    (apply_update (mkDocument "d1" "u" "report.pdf" "url")
        (process_and_update (extract_section_a [1] (fun _ => .ok "null")).result)).error_message =
      none :=
  ⟨rfl, rfl, rfl, rfl⟩

/-- C1 (amended): a record is created with `status = pending` and both
payload fields absent; the background update writes the `extracted_json`
key exactly when it sets `status = completed` (its value is the parsed
payload, which is null only in the degenerate case that the response text
parses to JSON null), writes a non-null `error_message` exactly when it
sets `status = failed`, and never writes both fields on the same record. -/
theorem C1_theorem (id u fn url : String) (r : Except String Json) :
    ((mkDocument id u fn url).status = "pending" ∧
      (mkDocument id u fn url).extracted_json = none ∧
      (mkDocument id u fn url).error_message = none) ∧
    ((∃ j, r = .ok j ∧
        (apply_update (mkDocument id u fn url) (process_and_update r)).status = "completed" ∧
        (apply_update (mkDocument id u fn url) (process_and_update r)).extracted_json = some j ∧
        (apply_update (mkDocument id u fn url) (process_and_update r)).error_message = none) ∨
     (∃ e, r = .error e ∧
        (apply_update (mkDocument id u fn url) (process_and_update r)).status = "failed" ∧
        (apply_update (mkDocument id u fn url) (process_and_update r)).error_message = some e ∧
        (apply_update (mkDocument id u fn url) (process_and_update r)).extracted_json = none)) ∧
    ¬((apply_update (mkDocument id u fn url) (process_and_update r)).extracted_json ≠ none ∧
      (apply_update (mkDocument id u fn url) (process_and_update r)).error_message ≠ none) := by
  cases r with
  | ok j =>
    refine ⟨⟨rfl, rfl, rfl⟩, Or.inl ⟨j, rfl, rfl, rfl, rfl⟩, ?_⟩
    simp [apply_update, process_and_update, mkDocument]
  | error e =>
    refine ⟨⟨rfl, rfl, rfl⟩, Or.inr ⟨e, rfl, rfl, rfl, rfl⟩, ?_⟩
    simp [apply_update, process_and_update, mkDocument]

/-! ### C2: stock-exchange normalization -/

/-- C2 counterexample: the normalization strips only the four recognized
exchange phrases, so the filler words of the claim's two examples survive
as uppercased tokens: `"National Stock Exchange of India Limited"`
normalizes to `"NSE OF INDIA LIMITED"`, not `"NSE"`, and the batch example
normalizes to `"BSENSE LISTED ON LIMITED AND LSE"`, not `"BSENSE LSE"`. -/
theorem C2_counterexample :
    normalize_stock_exchange_listing
        (.obj [("entity_details",
          .obj [("stock_exchange_listing",
            .str "National Stock Exchange of India Limited")])]) =
      .obj [("entity_details",
        .obj [("stock_exchange_listing", .str "NSE OF INDIA LIMITED")])] ∧
    normalize_listing_core "National Stock Exchange of India Limited" ≠ "NSE" ∧
    normalize_listing_core
        "Listed on NSE Limited and Bombay Stock Exchange Limited, LSE" ≠
      "BSENSE LSE" :=
  ⟨rfl, by decide, by decide⟩

theorem appendOthers_eq_append (others : List String) :
    ∀ acc : List String, ∃ extra, appendOthers acc others = acc ++ extra := by
  induction others with
  | nil => intro acc; exact ⟨[], by simp [appendOthers]⟩
  | cons o os ih =>
    intro acc
    show ∃ extra, appendOthers (appendOthersStep acc o) os = acc ++ extra
    by_cases h : (decide (o ≠ "") && !(acc.contains o)) = true
    · obtain ⟨e2, he2⟩ := ih (acc ++ [o])
      refine ⟨[o] ++ e2, ?_⟩
      rw [show appendOthersStep acc o = acc ++ [o] from by
        unfold appendOthersStep; rw [if_pos h]]
      rw [he2, List.append_assoc]
    · obtain ⟨e2, he2⟩ := ih acc
      refine ⟨e2, ?_⟩
      rw [show appendOthersStep acc o = acc from by
        unfold appendOthersStep; rw [if_neg h]]
      exact he2

theorem buildOthers_go_invariant (parts : List String) :
    ∀ acc : List String, acc.Nodup → (∀ t ∈ acc, t ≠ "BSE" ∧ t ≠ "NSE") →
      (parts.foldl buildOthersStep acc).Nodup ∧
        ∀ t ∈ parts.foldl buildOthersStep acc, t ≠ "BSE" ∧ t ≠ "NSE" := by
  induction parts with
  | nil => intro acc h1 h2; exact ⟨h1, h2⟩
  | cons p ps ih =>
    intro acc h1 h2
    show (ps.foldl buildOthersStep (buildOthersStep acc p)).Nodup ∧ _
    refine ih (buildOthersStep acc p) ?_ ?_
    · simp only [buildOthersStep]
      split
      · exact h1
      · split
        · exact h1
        · split
          · exact h1
          · rename_i htok hbn hmem
            refine List.Nodup.append h1 (List.nodup_singleton _) ?_
            intro a ha hb
            rcases List.mem_singleton.mp hb with rfl
            exact hmem (List.elem_iff.mpr ha)
    · simp only [buildOthersStep]
      split
      · exact h2
      · split
        · exact h2
        · split
          · exact h2
          · rename_i htok hbn hmem
            intro t ht
            rcases List.mem_append.mp ht with h | h
            · exact h2 t h
            · rcases List.mem_singleton.mp h with rfl
              constructor
              · intro he; rw [he] at hbn; simp at hbn
              · intro he; rw [he] at hbn; simp at hbn

/-- C2 (amended): the normalization emits the canonical token first
(`BSENSE` when both exchanges are detected), strips only the four
recognized exchange phrases (`bombay stock exchange`, word-bounded `bse`,
`national stock exchange`, word-bounded `nse`) out of the text, and
appends every remaining non-empty token uppercased and de-duplicated in
first-seen order — including filler words, which the claim's examples
wrongly assumed stripped: the batch example normalizes to
`"BSENSE LISTED ON LIMITED AND LSE"` and the single-exchange example to
`"NSE OF INDIA LIMITED"`. -/
theorem C2_theorem :
    normalize_listing_core
        "Listed on NSE Limited and Bombay Stock Exchange Limited, LSE" =
      "BSENSE LISTED ON LIMITED AND LSE" ∧
    normalize_listing_core "National Stock Exchange of India Limited" =
      "NSE OF INDIA LIMITED" ∧
    normalize_stock_exchange_listing
        (.obj [("entity_details", .obj [("stock_exchange_listing",
          .str "Listed on NSE Limited and Bombay Stock Exchange Limited, LSE")])]) =
      .obj [("entity_details", .obj [("stock_exchange_listing",
        .str "BSENSE LISTED ON LIMITED AND LSE")])] ∧
    (∀ raw : String,
      bseDetected (pyLower (pyStrip raw)) = true →
      nseDetected (pyLower (pyStrip raw)) = true →
      ∃ rest, listingTokens raw = "BSENSE" :: rest) ∧
    (∀ parts : List String, (buildOthers parts).Nodup ∧
      ∀ t ∈ buildOthers parts, t ≠ "BSE" ∧ t ≠ "NSE") := by
  refine ⟨rfl, rfl, rfl, ?_, ?_⟩
  · intro raw hb hn
    simp only [listingTokens]
    rw [hb, hn]
    have hc : canonResult true true = ["BSENSE"] := rfl
    rw [hc]
    obtain ⟨extra, he⟩ := appendOthers_eq_append
      (buildOthers (pySplitDelims (removeWordAll (removeSubAll (removeWordAll
        (removeSubAll (pyLower (pyStrip raw)) "bombay stock exchange") "bse")
        "national stock exchange") "nse"))) ["BSENSE"]
    exact ⟨extra, he⟩
  · intro parts
    exact buildOthers_go_invariant parts [] (List.nodup_nil) (by simp)

/-- C2 witness: on an input mentioning both exchanges the token list starts
with the canonical joined token. -/
theorem C2_witness :
    ∃ rest, listingTokens "BSE NSE x" = "BSENSE" :: rest :=
  C2_theorem.2.2.2.1 "BSE NSE x" (by decide) (by decide)

/-! ### C9: markdown-fence cleaning of unparseable responses -/

/-- Modelled from the spec claim wording, for refinement comparison only:
strip one LEADING markdown fence (with optional language tag) and one
TRAILING fence, trim whitespace, re-parse, and wrap the cleaned text when
still unparseable. -/
def spec_clean_response (raw : String) : Json :=
  let t := raw.data
  let t1 := if listIsPre "```".data t then
      (if listIsPre "json".data (((t.drop 3).take 4).map pyLowerChar)
       then (t.drop 3).drop 4 else t.drop 3)
    else t
  let t2 := if listIsPre "```".data t1.reverse then t1.take (t1.length - 3) else t1
  match jparse (pyStrip (String.mk t2)) with
  | some j => j
  | none => .obj [("raw_response", .str (pyStrip (String.mk t2)))]

/-- C9 counterexample: on a response text whose only fence sits in the
MIDDLE (no leading fence, no trailing fence), the code's cleaner still
removes it and the re-parse succeeds, while the claim's
leading-and-trailing stripping would leave the text unparseable and wrap
it as a raw payload. -/
theorem C9_counterexample :
    clean_gemini_response (parse_or_raw "\x7b\"a\": ```1\x7d") =
      .obj [("a", .num 1)] ∧
    spec_clean_response "\x7b\"a\": ```1\x7d" =
      .obj [("raw_response", .str "\x7b\"a\": ```1\x7d")] ∧
    listIsPre "```".data "\x7b\"a\": ```1\x7d".data = false ∧
    listIsPre "```".data "\x7b\"a\": ```1\x7d".data.reverse = false :=
  ⟨rfl, rfl, by decide, by decide⟩

/-- C9 (amended): when the response text is not strict JSON, the cleaner
strips EVERY markdown fence occurrence (with optional language tag and the
whitespace after it) anywhere in the text, then a trailing fence, trims,
and re-parses; the fenced example parses to the object, and a text still
unparseable after cleaning is wrapped as a raw-response payload rather
than raising. -/
theorem C9_theorem :
    clean_gemini_response (parse_or_raw "```json\n\x7b\"a\":1\x7d\n```") =
      .obj [("a", .num 1)] ∧
    clean_gemini_response (parse_or_raw "hello world") =
      .obj [("raw_response", .str "hello world")] ∧
    (∀ s : String, jparse s = none →
      clean_gemini_response (parse_or_raw s) =
        match jparse (cleanedText s) with
        | some j => j
        | none => .obj [("raw_response", .str (cleanedText s))]) := by
  refine ⟨rfl, rfl, ?_⟩
  intro s hs
  have h1 : parse_or_raw s = .obj [("raw_response", .str s)] := by
    unfold parse_or_raw
    rw [hs]
  rw [h1]
  rfl

/-- C9 witness: the general still-unparseable case applied to a concrete
unparseable text. -/
theorem C9_witness :
    clean_gemini_response (parse_or_raw "hello world") =
      match jparse (cleanedText "hello world") with
      | some j => j
      | none => .obj [("raw_response", .str (cleanedText "hello world"))] :=
  C9_theorem.2.2 "hello world" rfl


/-! ### C3: non-duplicate upload failure and the batch -/

/-- C3 counterexample: a batch `[a.pdf, b.pdf]` where the storage upload of
`a.pdf` raises (non-duplicate) is aborted whole: the endpoint re-raises the
`HTTPException(500)`, and no successful response is returned — even though
the same batch without `a.pdf` succeeds and accepts `b.pdf`. -/
theorem C3_counterexample :
    upload_pdfs "u"
        (fun p => if p = "u_a.pdf" then .httpErr "Supabase storage error: boom"
                  else .ok (some "url"))
        [⟨some "a.pdf", [1]⟩, ⟨some "b.pdf", [2]⟩] none {} =
      .error ⟨500, "Supabase storage error: boom"⟩ ∧
    upload_pdfs "u"
        (fun p => if p = "u_a.pdf" then .httpErr "Supabase storage error: boom"
                  else .ok (some "url"))
        [⟨some "b.pdf", [2]⟩] none {} =
      .ok (⟨[⟨"0", "url", "b.pdf"⟩], [], []⟩,
        ⟨[mkDocument "0" "u" "b.pdf" "url"], 1, [("0", [2])], ["u_b.pdf"]⟩) :=
  ⟨rfl, rfl⟩

/-- C3 (amended): a non-duplicate upload failure raised by the storage
service (its `HTTPException(500, "Supabase storage error: ...")`) aborts
the whole batch — the endpoint re-raises it and no response lists are
returned; only when the storage call returns without raising but yields no
URL is the failure logged and the file skipped, omitted from all three
result lists, with processing continuing on the remaining files. -/
theorem C3_theorem (user : String) (upFn : String → UploadFileResult)
    (f : UploadedFile) (rest : List UploadedFile) (st : UState) :
    (∀ m : String,
      pdfNameOk (pyStrip (f.filename.getD "")) = true →
      f.bytes ≠ [] →
      st.db.any (fun d =>
        d.user_id = user && d.file_name = pyStrip (f.filename.getD "")) = false →
      upFn (user ++ "_" ++ pyStrip (f.filename.getD "")) = .httpErr m →
      processFiles user upFn (f :: rest) st = .error ⟨500, m⟩) ∧
    (∀ url : Option String,
      pdfNameOk (pyStrip (f.filename.getD "")) = true →
      f.bytes ≠ [] →
      st.db.any (fun d =>
        d.user_id = user && d.file_name = pyStrip (f.filename.getD "")) = false →
      upFn (user ++ "_" ++ pyStrip (f.filename.getD "")) = .ok url →
      url.getD "" = "" →
      processFiles user upFn (f :: rest) st =
        processFiles user upFn rest
          { st with uploadCalls :=
              st.uploadCalls ++ [user ++ "_" ++ pyStrip (f.filename.getD "")] }) := by
  constructor
  · intro m hpdf hbytes hdup hup
    simp [processFiles, hpdf, hbytes, hdup, hup]
  · intro url hpdf hbytes hdup hup hurl
    simp [processFiles, hpdf, hbytes, hdup, hup, hurl]

/-- C3 witness: the abort case at a concrete batch. -/
theorem C3_witness :
    processFiles "u" (fun _ => .httpErr "Supabase storage error: boom")
      [⟨some "a.pdf", [1]⟩, ⟨some "b.pdf", [2]⟩] {} =
      .error ⟨500, "Supabase storage error: boom"⟩ :=
  by
  have h := C3_theorem "u" (fun _ => .httpErr "Supabase storage error: boom")
    ⟨some "a.pdf", [1]⟩ [⟨some "b.pdf", [2]⟩] {}
  exact h.1 "Supabase storage error: boom" (by decide) (by decide) rfl rfl

/-! ### C7: duplicate routing -/

/-- C7: a file whose (stripped) name the owner already has a record for is
routed to `skipped_duplicates` with the state unchanged — no upload call
and no new record — and processing continues with the remaining files;
a `DuplicateFileError` from the upload step likewise routes the file to
`skipped_duplicates` with no record created (only the upload-call trace
grows); concretely, submitting the same name twice in one batch yields the
second occurrence in `skipped_duplicates`, a single record, and a single
upload call. -/
theorem C7_theorem (user : String) (upFn : String → UploadFileResult)
    (f : UploadedFile) (rest : List UploadedFile) (st : UState) :
    (pdfNameOk (pyStrip (f.filename.getD "")) = true →
      f.bytes ≠ [] →
      st.db.any (fun d =>
        d.user_id = user && d.file_name = pyStrip (f.filename.getD "")) = true →
      processFiles user upFn (f :: rest) st =
        (fun p =>
          ({ p.1 with
              skipped_duplicates :=
                pyStrip (f.filename.getD "") :: p.1.skipped_duplicates },
            p.2)) <$> processFiles user upFn rest st) ∧
    (pdfNameOk (pyStrip (f.filename.getD "")) = true →
      f.bytes ≠ [] →
      st.db.any (fun d =>
        d.user_id = user && d.file_name = pyStrip (f.filename.getD "")) = false →
      upFn (user ++ "_" ++ pyStrip (f.filename.getD "")) = .dupFile →
      processFiles user upFn (f :: rest) st =
        (fun p =>
          ({ p.1 with
              skipped_duplicates :=
                pyStrip (f.filename.getD "") :: p.1.skipped_duplicates },
            p.2)) <$>
          processFiles user upFn rest
            { st with uploadCalls :=
                st.uploadCalls ++ [user ++ "_" ++ pyStrip (f.filename.getD "")] }) ∧
    upload_pdfs "u2" (fun _ => .ok (some "url"))
        [⟨some "d.pdf", [1]⟩, ⟨some "d.pdf", [2]⟩] none {} =
      .ok (⟨[⟨"0", "url", "d.pdf"⟩], ["d.pdf"], []⟩,
        ⟨[mkDocument "0" "u2" "d.pdf" "url"], 1, [("0", [1])], ["u2_d.pdf"]⟩) := by
  refine ⟨?_, ?_, rfl⟩
  · intro hpdf hbytes hdup
    simp [processFiles, hpdf, hbytes, hdup]
  · intro hpdf hbytes hdup hup
    simp [processFiles, hpdf, hbytes, hdup, hup]

/-- C7 witness: with an existing record for the same owner and name, the
file goes to `skipped_duplicates` and the state (hence the record set and
the upload-call trace) is unchanged. -/
theorem C7_witness :
    processFiles "u" (fun _ => .ok (some "url"))
      [⟨some "d.pdf", [9]⟩] ⟨[mkDocument "7" "u" "d.pdf" "url0"], 8, [], []⟩ =
      (fun p =>
        ({ p.1 with skipped_duplicates := "d.pdf" :: p.1.skipped_duplicates },
          p.2)) <$>
        processFiles "u" (fun _ => .ok (some "url")) []
          ⟨[mkDocument "7" "u" "d.pdf" "url0"], 8, [], []⟩ := by
  have h := C7_theorem "u" (fun _ => .ok (some "url")) ⟨some "d.pdf", [9]⟩ []
    ⟨[mkDocument "7" "u" "d.pdf" "url0"], 8, [], []⟩
  have h1 := h.1 (by decide) (by decide) rfl
  simpa using h1


/-! ### C4 and C10: export row fan-out -/

/-- The four holding-overlay columns of `expand_all`. -/
def holdingColumns : List String :=
  ["23. Group Entity", "23. Group Entity Type", "23. Mapped Group Entity Type",
   "23. % Shares"]

/-- The six risk-overlay columns of `expand_all`. -/
def riskColumns : List String :=
  ["26. Category", "26. Material Issue", "26. Risk/Opportunity", "26. Rationale",
   "26. Financial Impact", "26. Approach to Adapt/Mitigate"]

theorem riskRowOf_keys (c : String) (it : RiskItem) :
    ∀ p ∈ riskRowOf c it, p.1 ∈ riskColumns := by
  intro p hp
  simp only [riskRowOf, List.mem_cons, List.not_mem_nil, or_false] at hp
  rcases hp with rfl | rfl | rfl | rfl | rfl | rfl <;> simp [riskColumns]

theorem risk_rows_of_mem (R : RisksObj) (x : Row) (hx : x ∈ risk_rows_of R) :
    ∃ c it, x = riskRowOf c it := by
  unfold risk_rows_of at hx
  rcases List.mem_append.mp hx with h | h
  · rcases List.mem_append.mp h with h1 | h1
    · obtain ⟨it, _, rfl⟩ := List.mem_map.mp h1
      exact ⟨_, it, rfl⟩
    · obtain ⟨it, _, rfl⟩ := List.mem_map.mp h1
      exact ⟨_, it, rfl⟩
  · obtain ⟨it, _, rfl⟩ := List.mem_map.mp h
    exact ⟨_, it, rfl⟩

theorem rowUpdate_riskRowOf (row : Row) (c : String) (it : RiskItem) :
    rowUpdate row (riskRowOf c it) =
      setKey (setKey (setKey (setKey (setKey (setKey row
        "26. Category" (.str (pyCapitalize c)))
        "26. Material Issue" (it.material_issue.getD .null))
        "26. Risk/Opportunity" (it.risk_or_opportunity.getD .null))
        "26. Rationale" (it.rationale.getD .null))
        "26. Financial Impact" (it.financial_implications.getD .null))
        "26. Approach to Adapt/Mitigate" (it.approach_to_adapt_mitigate.getD .null) :=
  rfl

theorem rowGet_holdingOverlay_ne (row : Row) (h : Holding) (k : String)
    (hk : k ∉ holdingColumns) :
    rowGet (holdingOverlay row h) k = rowGet row k := by
  simp only [holdingColumns, List.mem_cons, List.not_mem_nil, or_false, not_or] at hk
  unfold holdingOverlay rowGet
  rw [jLookup_setKey_ne _ _ _ _ hk.2.2.2, jLookup_setKey_ne _ _ _ _ hk.2.2.1,
    jLookup_setKey_ne _ _ _ _ hk.2.1, jLookup_setKey_ne _ _ _ _ hk.1]

theorem rowGet_holdingOverlay_fields (row : Row) (h : Holding) :
    rowGet (holdingOverlay row h) "23. Group Entity" = some (h.name.getD .null) ∧
    rowGet (holdingOverlay row h) "23. Group Entity Type" =
      some ((h.type_.map Json.str).getD .null) ∧
    rowGet (holdingOverlay row h) "23. Mapped Group Entity Type" =
      some (.str (map_group_entity_type h.type_)) ∧
    rowGet (holdingOverlay row h) "23. % Shares" =
      some (h.percent_shares_held.getD .null) := by
  unfold holdingOverlay rowGet
  refine ⟨?_, ?_, ?_, ?_⟩
  · rw [jLookup_setKey_ne _ _ _ _ (by decide), jLookup_setKey_ne _ _ _ _ (by decide),
      jLookup_setKey_ne _ _ _ _ (by decide), jLookup_setKey_self]
  · rw [jLookup_setKey_ne _ _ _ _ (by decide), jLookup_setKey_ne _ _ _ _ (by decide),
      jLookup_setKey_self]
  · rw [jLookup_setKey_ne _ _ _ _ (by decide), jLookup_setKey_self]
  · rw [jLookup_setKey_self]

theorem rowGet_rowUpdate_riskRowOf_ne (row : Row) (c : String) (it : RiskItem)
    (k : String) (hk : k ∉ riskColumns) :
    rowGet (rowUpdate row (riskRowOf c it)) k = rowGet row k := by
  unfold rowGet
  rw [jLookup_rowUpdate_ne]
  intro p hp he
  exact hk (he ▸ riskRowOf_keys c it p hp)

theorem rowGet_rowUpdate_riskRowOf_fields (row : Row) (c : String) (it : RiskItem) :
    rowGet (rowUpdate row (riskRowOf c it)) "26. Category" =
      some (.str (pyCapitalize c)) ∧
    rowGet (rowUpdate row (riskRowOf c it)) "26. Material Issue" =
      some (it.material_issue.getD .null) ∧
    rowGet (rowUpdate row (riskRowOf c it)) "26. Risk/Opportunity" =
      some (it.risk_or_opportunity.getD .null) ∧
    rowGet (rowUpdate row (riskRowOf c it)) "26. Rationale" =
      some (it.rationale.getD .null) ∧
    rowGet (rowUpdate row (riskRowOf c it)) "26. Financial Impact" =
      some (it.financial_implications.getD .null) ∧
    rowGet (rowUpdate row (riskRowOf c it)) "26. Approach to Adapt/Mitigate" =
      some (it.approach_to_adapt_mitigate.getD .null) := by
  rw [rowUpdate_riskRowOf]
  unfold rowGet
  refine ⟨?_, ?_, ?_, ?_, ?_, ?_⟩
  · rw [jLookup_setKey_ne _ _ _ _ (by decide), jLookup_setKey_ne _ _ _ _ (by decide),
      jLookup_setKey_ne _ _ _ _ (by decide), jLookup_setKey_ne _ _ _ _ (by decide),
      jLookup_setKey_ne _ _ _ _ (by decide), jLookup_setKey_self]
  · rw [jLookup_setKey_ne _ _ _ _ (by decide), jLookup_setKey_ne _ _ _ _ (by decide),
      jLookup_setKey_ne _ _ _ _ (by decide), jLookup_setKey_ne _ _ _ _ (by decide),
      jLookup_setKey_self]
  · rw [jLookup_setKey_ne _ _ _ _ (by decide), jLookup_setKey_ne _ _ _ _ (by decide),
      jLookup_setKey_ne _ _ _ _ (by decide), jLookup_setKey_self]
  · rw [jLookup_setKey_ne _ _ _ _ (by decide), jLookup_setKey_ne _ _ _ _ (by decide),
      jLookup_setKey_self]
  · rw [jLookup_setKey_ne _ _ _ _ (by decide), jLookup_setKey_self]
  · rw [jLookup_setKey_self]

theorem rowGet_identityRow_other (base_row : Row) (k : String)
    (h1 : k ≠ cinColumn) (h2 : k ≠ nameColumn) :
    rowGet (identityRow base_row) k = (rowGet base_row k).map (fun _ => Json.str "") := by
  unfold identityRow rowGet
  rw [jLookup_setKey_ne _ _ _ _ h2, jLookup_setKey_ne _ _ _ _ h1]
  exact jLookup_blankAll base_row k

theorem rowGet_identityRow_id (base_row : Row) :
    rowGet (identityRow base_row) cinColumn =
      some ((rowGet base_row cinColumn).getD .null) ∧
    rowGet (identityRow base_row) nameColumn =
      some ((rowGet base_row nameColumn).getD .null) := by
  unfold identityRow rowGet
  constructor
  · rw [jLookup_setKey_ne _ _ _ _ (by decide), jLookup_setKey_self]
  · rw [jLookup_setKey_self]

/-- C4 counterexample: with holdings `[{name X, type b}, {name Y, type a}]`
and no risks, row 0 is overlaid with `Y` (the first holding in type-sorted
order), not with `holdingEntities[0] = X` — refuting the claim that row `i`
is overlaid with `holdingEntities[i]`. -/
theorem C4_counterexample :
    rowGet ((expand_all
        ⟨[⟨some (.str "X"), some "b", none⟩, ⟨some (.str "Y"), some "a", none⟩],
          .dict none none none⟩ []).headD [])
      "23. Group Entity" = some (.str "Y") ∧
    (expand_all
        ⟨[⟨some (.str "X"), some "b", none⟩, ⟨some (.str "Y"), some "a", none⟩],
          .dict none none none⟩ []).length = 2 ∧
    (⟨[⟨some (.str "X"), some "b", none⟩, ⟨some (.str "Y"), some "a", none⟩],
        .dict none none none⟩ : RecData).holding_subsidiaries.headD {} =
      ⟨some (.str "X"), some "b", none⟩ :=
  ⟨rfl, rfl, rfl⟩

/-- C4 (amended): the number of output rows is
`max(1, count(holdings), count(risk items))` with risk items the
environment, social, governance arrays concatenated in that order; row 0
carries all base fields (outside the overlay columns), rows `1..n-1` carry
only the CIN and entity-name columns with all other base fields blank, and
row `i` is independently overlaid with the `i`-th holding IN TYPE-SORTED
ORDER (not `holdingEntities[i]` of the payload) and the `i`-th risk item —
two parallel fan-outs sharing the row index, not a cross product. -/
theorem C4_theorem (data : RecData) (base_row : Row) :
    (expand_all data base_row).length =
      max 1 (max data.holding_subsidiaries.length
        (risk_rows_of data.material_risks_opportunities).length) ∧
    expand_all data base_row =
      (List.range (max 1 (max (sortedHoldings data.holding_subsidiaries).length
          (risk_rows_of data.material_risks_opportunities).length))).map
        (expandRow (sortedHoldings data.holding_subsidiaries)
          (risk_rows_of data.material_risks_opportunities) base_row) ∧
    risk_rows_of data.material_risks_opportunities =
      (items_for_category data.material_risks_opportunities .environment).map
          (riskRowOf "environment") ++
        (items_for_category data.material_risks_opportunities .social).map
          (riskRowOf "social") ++
        (items_for_category data.material_risks_opportunities .governance).map
          (riskRowOf "governance") ∧
    (∀ k v, (base_row.map Prod.fst).Nodup → (k, v) ∈ base_row →
      k ∉ holdingColumns → k ∉ riskColumns →
      rowGet (expandRow (sortedHoldings data.holding_subsidiaries)
        (risk_rows_of data.material_risks_opportunities) base_row 0) k = some v) ∧
    (∀ i k v, 1 ≤ i → (k, v) ∈ base_row →
      k ≠ cinColumn → k ≠ nameColumn → k ∉ holdingColumns → k ∉ riskColumns →
      rowGet (expandRow (sortedHoldings data.holding_subsidiaries)
        (risk_rows_of data.material_risks_opportunities) base_row i) k =
        some (.str "")) ∧
    (∀ i, 1 ≤ i →
      rowGet (expandRow (sortedHoldings data.holding_subsidiaries)
        (risk_rows_of data.material_risks_opportunities) base_row i) cinColumn =
        some ((rowGet base_row cinColumn).getD .null) ∧
      rowGet (expandRow (sortedHoldings data.holding_subsidiaries)
        (risk_rows_of data.material_risks_opportunities) base_row i) nameColumn =
        some ((rowGet base_row nameColumn).getD .null)) ∧
    (∀ i h, (sortedHoldings data.holding_subsidiaries)[i]? = some h →
      rowGet (expandRow (sortedHoldings data.holding_subsidiaries)
        (risk_rows_of data.material_risks_opportunities) base_row i)
        "23. Group Entity" = some (h.name.getD .null) ∧
      rowGet (expandRow (sortedHoldings data.holding_subsidiaries)
        (risk_rows_of data.material_risks_opportunities) base_row i)
        "23. % Shares" = some (h.percent_shares_held.getD .null)) ∧
    (∀ i c it,
      (risk_rows_of data.material_risks_opportunities)[i]? = some (riskRowOf c it) →
      rowGet (expandRow (sortedHoldings data.holding_subsidiaries)
        (risk_rows_of data.material_risks_opportunities) base_row i)
        "26. Category" = some (.str (pyCapitalize c)) ∧
      rowGet (expandRow (sortedHoldings data.holding_subsidiaries)
        (risk_rows_of data.material_risks_opportunities) base_row i)
        "26. Material Issue" = some (it.material_issue.getD .null)) := by
  refine ⟨?_, ?_, rfl, ?_, ?_, ?_, ?_, ?_⟩
  · unfold expand_all
    rw [List.length_map, List.length_range]
    have hlen : (sortedHoldings data.holding_subsidiaries).length =
        data.holding_subsidiaries.length :=
      (List.perm_insertionSort _ _).length_eq
    rw [hlen]
  · rfl
  · intro k v hnd hmem hk23 hk26
    unfold expandRow
    simp only [if_pos rfl]
    have hbase : jLookup base_row k = some v := jLookup_of_nodup_mem _ _ _ hnd hmem
    cases hrr : (risk_rows_of data.material_risks_opportunities)[0]? with
    | none =>
      cases h23 : (sortedHoldings data.holding_subsidiaries)[0]? with
      | none => simpa [rowGet] using hbase
      | some h =>
        rw [rowGet_holdingOverlay_ne _ _ _ hk23]
        simpa [rowGet] using hbase
    | some rrow =>
      obtain ⟨c, it, rfl⟩ := risk_rows_of_mem _ _ (List.getElem?_mem hrr)
      rw [rowGet_rowUpdate_riskRowOf_ne _ _ _ _ hk26]
      cases h23 : (sortedHoldings data.holding_subsidiaries)[0]? with
      | none => simpa [rowGet] using hbase
      | some h =>
        rw [rowGet_holdingOverlay_ne _ _ _ hk23]
        simpa [rowGet] using hbase
  · intro i k v hi hmem hcin hname hk23 hk26
    unfold expandRow
    rw [if_neg (by omega)]
    obtain ⟨w, hw⟩ := jLookup_mem_isSome base_row k v hmem
    have hid : rowGet (identityRow base_row) k = some (.str "") := by
      rw [rowGet_identityRow_other _ _ hcin hname]
      rw [show rowGet base_row k = some w from hw]
      rfl
    cases hrr : (risk_rows_of data.material_risks_opportunities)[i]? with
    | none =>
      cases h23 : (sortedHoldings data.holding_subsidiaries)[i]? with
      | none => exact hid
      | some h => rw [rowGet_holdingOverlay_ne _ _ _ hk23]; exact hid
    | some rrow =>
      obtain ⟨c, it, rfl⟩ := risk_rows_of_mem _ _ (List.getElem?_mem hrr)
      rw [rowGet_rowUpdate_riskRowOf_ne _ _ _ _ hk26]
      cases h23 : (sortedHoldings data.holding_subsidiaries)[i]? with
      | none => exact hid
      | some h => rw [rowGet_holdingOverlay_ne _ _ _ hk23]; exact hid
  · intro i hi
    unfold expandRow
    rw [if_neg (by omega)]
    have hcin26 : cinColumn ∉ riskColumns := by decide
    have hname26 : nameColumn ∉ riskColumns := by decide
    have hcin23 : cinColumn ∉ holdingColumns := by decide
    have hname23 : nameColumn ∉ holdingColumns := by decide
    cases hrr : (risk_rows_of data.material_risks_opportunities)[i]? with
    | none =>
      cases h23 : (sortedHoldings data.holding_subsidiaries)[i]? with
      | none => exact rowGet_identityRow_id base_row
      | some h =>
        rw [rowGet_holdingOverlay_ne _ _ _ hcin23, rowGet_holdingOverlay_ne _ _ _ hname23]
        exact rowGet_identityRow_id base_row
    | some rrow =>
      obtain ⟨c, it, rfl⟩ := risk_rows_of_mem _ _ (List.getElem?_mem hrr)
      rw [rowGet_rowUpdate_riskRowOf_ne _ _ _ _ hcin26,
        rowGet_rowUpdate_riskRowOf_ne _ _ _ _ hname26]
      cases h23 : (sortedHoldings data.holding_subsidiaries)[i]? with
      | none => exact rowGet_identityRow_id base_row
      | some h =>
        rw [rowGet_holdingOverlay_ne _ _ _ hcin23, rowGet_holdingOverlay_ne _ _ _ hname23]
        exact rowGet_identityRow_id base_row
  · intro i h h23
    unfold expandRow
    rw [h23]
    cases hrr : (risk_rows_of data.material_risks_opportunities)[i]? with
    | none =>
      exact ⟨(rowGet_holdingOverlay_fields _ h).1, (rowGet_holdingOverlay_fields _ h).2.2.2⟩
    | some rrow =>
      obtain ⟨c, it, rfl⟩ := risk_rows_of_mem _ _ (List.getElem?_mem hrr)
      rw [rowGet_rowUpdate_riskRowOf_ne _ _ _ _ (by decide),
        rowGet_rowUpdate_riskRowOf_ne _ _ _ _ (by decide)]
      exact ⟨(rowGet_holdingOverlay_fields _ h).1, (rowGet_holdingOverlay_fields _ h).2.2.2⟩
  · intro i c it hrr
    unfold expandRow
    rw [hrr]
    exact ⟨(rowGet_rowUpdate_riskRowOf_fields _ c it).1,
      (rowGet_rowUpdate_riskRowOf_fields _ c it).2.1⟩

/-- C4 witness: the fan-out properties at a concrete record with one
holding and one risk item and a two-column base row. -/
theorem C4_witness :
    rowGet (expandRow (sortedHoldings [⟨some (.str "H"), some "t", none⟩])
        (risk_rows_of (.dict (some [⟨some (.str "w"), none, none, none, none⟩])
          none none))
        [(cinColumn, .str "C"), ("9. Financial Year", .str "FY")] 0)
      "9. Financial Year" = some (.str "FY") ∧
    rowGet (expandRow (sortedHoldings [⟨some (.str "H"), some "t", none⟩])
        (risk_rows_of (.dict (some [⟨some (.str "w"), none, none, none, none⟩])
          none none))
        [(cinColumn, .str "C"), ("9. Financial Year", .str "FY")] 0)
      "26. Material Issue" = some (.str "w") := by
  constructor
  · exact (C4_theorem ⟨[⟨some (.str "H"), some "t", none⟩],
      .dict (some [⟨some (.str "w"), none, none, none, none⟩]) none none⟩
      [(cinColumn, .str "C"), ("9. Financial Year", .str "FY")]).2.2.2.1
      "9. Financial Year" (.str "FY") (by decide) (by simp) (by decide) (by decide)
  · exact ((C4_theorem ⟨[⟨some (.str "H"), some "t", none⟩],
      .dict (some [⟨some (.str "w"), none, none, none, none⟩]) none none⟩
      [(cinColumn, .str "C"), ("9. Financial Year", .str "FY")]).2.2.2.2.2.2.2
      0 "environment" ⟨some (.str "w"), none, none, none, none⟩ rfl).2

/-- C10: before overlaying holdings onto export rows, `expand_all` sorts
the holding list ascending by the `type` string via a stable sort (entries
without a `type` key use the empty string, which is the least key), and row
`i` receives the `i`-th holding of that sorted list; on a payload whose
holdings are not already type-sorted the overlay order differs from the
payload order. -/
theorem C10_theorem :
    (∀ l : List Holding, List.Perm (sortedHoldings l) l ∧
      List.Sorted holdLe (sortedHoldings l)) ∧
    (∀ h : Holding, h.type_ = none → holdKey h = "") ∧
    (∀ h h' : Holding, h.type_ = none → holdLe h h') ∧
    (∀ (data : RecData) (base_row : Row) (i : Nat) (h : Holding),
      (sortedHoldings data.holding_subsidiaries)[i]? = some h →
      rowGet (expandRow (sortedHoldings data.holding_subsidiaries)
        (risk_rows_of data.material_risks_opportunities) base_row i)
        "23. Group Entity" = some (h.name.getD .null)) ∧
    sortedHoldings
        [⟨some (.str "X"), some "b", none⟩, ⟨some (.str "Y"), some "a", none⟩] =
      [⟨some (.str "Y"), some "a", none⟩, ⟨some (.str "X"), some "b", none⟩] := by
  refine ⟨?_, ?_, ?_, ?_, rfl⟩
  · intro l
    exact ⟨List.perm_insertionSort _ l, List.sorted_insertionSort _ l⟩
  · intro h ht
    simp [holdKey, ht]
  · intro h h' ht
    show pyStrLe (holdKey h) (holdKey h') = true
    rw [show holdKey h = "" from by simp [holdKey, ht]]
    rfl
  · intro data base_row i h h23
    unfold expandRow
    rw [h23]
    cases hrr : (risk_rows_of data.material_risks_opportunities)[i]? with
    | none => exact (rowGet_holdingOverlay_fields _ h).1
    | some rrow =>
      obtain ⟨c, it, rfl⟩ := risk_rows_of_mem _ _ (List.getElem?_mem hrr)
      rw [rowGet_rowUpdate_riskRowOf_ne _ _ _ _ (by decide)]
      exact (rowGet_holdingOverlay_fields _ h).1

/-- C10 witness: on the two-holding record above, row 0 is overlaid with
the holding whose type sorts first. -/
theorem C10_witness :
    rowGet (expandRow (sortedHoldings
        [⟨some (.str "X"), some "b", none⟩, ⟨some (.str "Y"), some "a", none⟩])
        (risk_rows_of (.dict none none none)) [] 0)
      "23. Group Entity" = some (.str "Y") := by
  have h := C10_theorem.2.2.2.1
    ⟨[⟨some (.str "X"), some "b", none⟩, ⟨some (.str "Y"), some "a", none⟩],
      .dict none none none⟩ [] 0 ⟨some (.str "Y"), some "a", none⟩ rfl
  simpa using h


/-! ### C5: export endpoint behaviour -/

/-- The payload the export resolves a literal request id string to: the
(unique) db record whose canonical id string equals the request string and
which is owned by the caller, completed, and has a non-null payload. -/
def exDocSel (u : String) (db : List ExDoc) (i : String) : Option Json :=
  (db.find? (fun d => d.id = i && d.user_id = u && d.status = "completed" &&
    payloadPresent d.extracted_json)).map (fun d => d.extracted_json.getD .null)

theorem setKey_not_mem (r : List (String × Json)) (k : String) (v : Json)
    (h : k ∉ r.map Prod.fst) : setKey r k v = r ++ [(k, v)] := by
  induction r with
  | nil => rfl
  | cons p rest ih =>
    obtain ⟨k0, v0⟩ := p
    simp only [List.map_cons, List.mem_cons, not_or] at h
    have hne : k0 ≠ k := fun he => h.1 he.symm
    simp [setKey, hne, ih h.2]

theorem foldl_setKey_map (docs : List ExDoc) :
    ∀ acc : List (String × Json),
      (∀ d ∈ docs, d.id ∉ acc.map Prod.fst) → (docs.map ExDoc.id).Nodup →
      docs.foldl (fun acc d => setKey acc d.id (d.extracted_json.getD .null)) acc =
        acc ++ docs.map (fun d => (d.id, d.extracted_json.getD .null)) := by
  induction docs with
  | nil => intro acc _ _; simp
  | cons d ds ih =>
    intro acc hnin hnd
    have hd : d.id ∉ acc.map Prod.fst := hnin d (by simp)
    have hset := setKey_not_mem acc d.id (d.extracted_json.getD .null) hd
    have hnd' : d.id ∉ ds.map ExDoc.id ∧ (ds.map ExDoc.id).Nodup := by
      simpa [List.nodup_cons] using hnd
    show ds.foldl _ (setKey acc d.id (d.extracted_json.getD .null)) = _
    rw [ih (setKey acc d.id (d.extracted_json.getD .null)) ?_ hnd'.2, hset]
    · simp
    · intro d' hd'
      rw [hset]
      simp only [List.map_append, List.mem_append, List.map_cons, List.map_nil,
        List.mem_singleton, not_or]
      refine ⟨hnin d' (by simp [hd']), ?_⟩
      intro he
      exact hnd'.1 (he ▸ List.mem_map.mpr ⟨d', hd', rfl⟩)

theorem jLookup_map_pair (l : List ExDoc) (i : String) :
    jLookup (l.map (fun d => (d.id, d.extracted_json.getD .null))) i =
      (l.find? (fun d => d.id = i)).map (fun d => d.extracted_json.getD .null) := by
  induction l with
  | nil => rfl
  | cons d ds ih =>
    by_cases h : d.id = i
    · simp [jLookup, List.find?_cons, h]
    · simp [jLookup, List.find?_cons, h, ih]

theorem find?_filter (l : List ExDoc) (p q : ExDoc → Bool) :
    (l.filter q).find? p = l.find? (fun d => p d && q d) := by
  induction l with
  | nil => rfl
  | cons d ds ih =>
    by_cases hq : q d
    · by_cases hp : p d
      · simp [List.filter_cons, hq, List.find?_cons, hp]
      · simp [List.filter_cons, hq, List.find?_cons, hp, ih]
    · simp [List.filter_cons, hq, List.find?_cons, ih]

theorem find?_congr_mem (l : List ExDoc) (p q : ExDoc → Bool)
    (h : ∀ d ∈ l, p d = q d) : l.find? p = l.find? q := by
  induction l with
  | nil => rfl
  | cons d ds ih =>
    rw [List.find?_cons, List.find?_cons, h d (by simp),
      ih (fun d' hd' => h d' (by simp [hd']))]

theorem filterMap_congr_mem (l : List String) (f g : String → Option Json)
    (h : ∀ a ∈ l, f a = g a) : l.filterMap f = l.filterMap g := by
  induction l with
  | nil => rfl
  | cons a as ih =>
    rw [List.filterMap_cons, List.filterMap_cons, h a (by simp),
      ih (fun a' ha' => h a' (by simp [ha']))]

theorem find?_perm_unique (l l' : List ExDoc) (p : ExDoc → Bool)
    (hperm : List.Perm l' l)
    (huniq : ∀ a ∈ l, ∀ b ∈ l, p a = true → p b = true → a = b) :
    l'.find? p = l.find? p := by
  cases hfl : l.find? p with
  | some d =>
    have hd : p d = true := List.find?_some hfl
    have hdl : d ∈ l := List.mem_of_find?_eq_some hfl
    cases hfl' : l'.find? p with
    | some d' =>
      have hd'l : d' ∈ l := hperm.mem_iff.mp (List.mem_of_find?_eq_some hfl')
      rw [huniq d' hd'l d hdl (List.find?_some hfl') hd]
    | none =>
      exact absurd hd (List.find?_eq_none.mp hfl' d (hperm.mem_iff.mpr hdl))
  | none =>
    apply List.find?_eq_none.mpr
    intro x hx
    exact List.find?_eq_none.mp hfl x (hperm.mem_iff.mp hx)

theorem parseAllIds_of_valid (ids : List String)
    (h : ∀ i ∈ ids, validObjectId i = true) :
    parseAllIds ids = some (ids.map pyLower) := by
  induction ids with
  | nil => rfl
  | cons i rest ih =>
    have hi : validObjectId i = true := h i (by simp)
    simp [parseAllIds, parseObjectId, hi, ih (fun j hj => h j (by simp [hj]))]

theorem parseAllIds_none (ids : List String) (i : String) (hi : i ∈ ids)
    (hp : parseObjectId i = none) : parseAllIds ids = none := by
  induction ids with
  | nil => cases hi
  | cons j rest ih =>
    rcases List.mem_cons.mp hi with rfl | hmem
    · simp [parseAllIds, hp]
    · cases hj : parseObjectId j <;> simp [parseAllIds, hj, ih hmem]

theorem generate_excel_characterization (u : String) (ids : List String)
    (db : List ExDoc)
    (hne : ids ≠ []) (hval : ∀ i ∈ ids, validObjectId i = true)
    (hnd : (db.map ExDoc.id).Nodup) (hcan : ∀ d ∈ db, pyLower d.id = d.id) :
    generate_excel u ids db =
      if (ids.filterMap (exDocSel u db)).isEmpty then
        .error ⟨404, "No completed documents found for the provided document_ids"⟩
      else .ok (ids.filterMap (exDocSel u db)) := by
  have hemp : ids.isEmpty = false := by
    cases ids with
    | nil => exact absurd rfl hne
    | cons _ _ => rfl
  have hdocsnd : ((db.filter (exDocMatches u (ids.map pyLower))).map ExDoc.id).Nodup :=
    ((List.filter_sublist db).map ExDoc.id).nodup hnd
  have hby_id : (db.filter (exDocMatches u (ids.map pyLower))).foldl
      (fun acc d => setKey acc d.id (d.extracted_json.getD .null)) [] =
      (db.filter (exDocMatches u (ids.map pyLower))).map
        (fun d => (d.id, d.extracted_json.getD .null)) := by
    rw [foldl_setKey_map _ [] (by simp) hdocsnd]
    simp
  have hlook : ∀ i ∈ ids,
      jLookup ((db.filter (exDocMatches u (ids.map pyLower))).foldl
        (fun acc d => setKey acc d.id (d.extracted_json.getD .null)) []) i =
      exDocSel u db i := by
    intro i hi
    rw [hby_id, jLookup_map_pair, find?_filter]
    unfold exDocSel
    rw [find?_congr_mem db _ _ ?_]
    intro d hd
    by_cases hdi : d.id = i
    · have hcontains : (ids.map pyLower).contains d.id = true := by
        apply List.elem_eq_true_of_mem
        have : pyLower i = i := by rw [← hdi, hcan d hd, hdi]
        rw [hdi, ← this]
        exact List.mem_map.mpr ⟨i, hi, rfl⟩
      simp only [exDocMatches, hcontains, Bool.true_and, Bool.and_assoc]
    · simp [hdi]
  unfold generate_excel
  rw [if_neg (by simp [hemp]), parseAllIds_of_valid ids hval]
  dsimp only
  rw [filterMap_congr_mem ids _ _ hlook]

/-- C5 counterexample: a request id that differs only in hex case from the
stored record's canonical id parses to that record's ObjectId, and the
record matches the completed-with-payload query, yet the export drops it
from the response (the literal-string lookup misses) and fails with the
no-records error — refuting the claim that the error occurs only when no
id resolves to a completed owned record with a payload. -/
theorem C5_counterexample :
    generate_excel "u" ["AAAAAAAAAAAAAAAAAAAAAAAA"]
        [⟨"aaaaaaaaaaaaaaaaaaaaaaaa", "u", "completed", some (.num 1)⟩] =
      .error ⟨404, "No completed documents found for the provided document_ids"⟩ ∧
    parseObjectId "AAAAAAAAAAAAAAAAAAAAAAAA" = some "aaaaaaaaaaaaaaaaaaaaaaaa" ∧
    exDocMatches "u" ["aaaaaaaaaaaaaaaaaaaaaaaa"]
        ⟨"aaaaaaaaaaaaaaaaaaaaaaaa", "u", "completed", some (.num 1)⟩ = true :=
  ⟨rfl, rfl, rfl⟩

/-- C5 (amended): the export fails with a client error if the requested id
list is empty (400), if any id is unparseable (400), or if no requested id
string literally (case-sensitively) equals the canonical string form of a
record owned by the caller with status completed and a non-null payload
(404) — an id that resolves to a record's ObjectId only up to hex-case
normalization is dropped, and may trigger the 404 despite resolving;
otherwise the exported payloads (hence the per-document row groups) follow
exactly the caller-specified id order restricted to the ids that so
matched, independently of database return order. -/
theorem C5_theorem :
    (∀ (u : String) (db : List ExDoc),
      generate_excel u [] db = .error ⟨400, "document_ids is required"⟩) ∧
    (∀ (u : String) (db : List ExDoc) (ids : List String) (i : String),
      i ∈ ids → parseObjectId i = none →
      generate_excel u ids db = .error ⟨400, "one or more invalid document_ids"⟩) ∧
    (∀ (u : String) (ids : List String) (db : List ExDoc),
      ids ≠ [] → (∀ i ∈ ids, validObjectId i = true) →
      (db.map ExDoc.id).Nodup → (∀ d ∈ db, pyLower d.id = d.id) →
      generate_excel u ids db =
        if (ids.filterMap (exDocSel u db)).isEmpty then
          .error ⟨404, "No completed documents found for the provided document_ids"⟩
        else .ok (ids.filterMap (exDocSel u db))) ∧
    (∀ (u : String) (ids : List String) (db db' : List ExDoc),
      ids ≠ [] → (∀ i ∈ ids, validObjectId i = true) →
      (db.map ExDoc.id).Nodup → (∀ d ∈ db, pyLower d.id = d.id) →
      List.Perm db' db →
      generate_excel u ids db' = generate_excel u ids db) := by
  refine ⟨?_, ?_, ?_, ?_⟩
  · intro u db
    rfl
  · intro u db ids i hi hp
    have hne : ids ≠ [] := by
      intro he
      rw [he] at hi
      cases hi
    have hemp : ids.isEmpty = false := by
      cases ids with
      | nil => exact absurd rfl hne
      | cons _ _ => rfl
    unfold generate_excel
    rw [if_neg (by simp [hemp]), parseAllIds_none ids i hi hp]
  · intro u ids db hne hval hnd hcan
    exact generate_excel_characterization u ids db hne hval hnd hcan
  · intro u ids db db' hne hval hnd hcan hperm
    have hnd' : (db'.map ExDoc.id).Nodup := ((hperm.map ExDoc.id).nodup_iff).mpr hnd
    have hcan' : ∀ d ∈ db', pyLower d.id = d.id := fun d hd =>
      hcan d (hperm.mem_iff.mp hd)
    rw [generate_excel_characterization u ids db hne hval hnd hcan,
      generate_excel_characterization u ids db' hne hval hnd' hcan']
    have hsel : ∀ i ∈ ids, exDocSel u db' i = exDocSel u db i := by
      intro i _
      unfold exDocSel
      rw [find?_perm_unique db db' _ hperm ?_]
      intro a ha b hb hpa hpb
      simp only [Bool.and_eq_true, decide_eq_true_eq] at hpa hpb
      exact List.inj_on_of_nodup_map hnd ha hb (by rw [hpa.1.1.1, hpb.1.1.1])
    rw [filterMap_congr_mem ids _ _ hsel]

/-- C5 witness: exporting ids `[c, a]` over a db stored in order `[a, b, c]`
(with `b` not completed) returns the payloads grouped in the caller's
order `c, a`, and any permutation of the db gives the same response. -/
theorem C5_witness :
    generate_excel "u"
        ["cccccccccccccccccccccccc", "aaaaaaaaaaaaaaaaaaaaaaaa"]
        [⟨"aaaaaaaaaaaaaaaaaaaaaaaa", "u", "completed", some (.num 1)⟩,
         ⟨"bbbbbbbbbbbbbbbbbbbbbbbb", "u", "pending", none⟩,
         ⟨"cccccccccccccccccccccccc", "u", "completed", some (.num 3)⟩] =
      .ok [.num 3, .num 1] := by
  have h := C5_theorem.2.2.1 "u"
    ["cccccccccccccccccccccccc", "aaaaaaaaaaaaaaaaaaaaaaaa"]
    [⟨"aaaaaaaaaaaaaaaaaaaaaaaa", "u", "completed", some (.num 1)⟩,
     ⟨"bbbbbbbbbbbbbbbbbbbbbbbb", "u", "pending", none⟩,
     ⟨"cccccccccccccccccccccccc", "u", "completed", some (.num 3)⟩]
    (by simp) (by decide)
    (by decide)
    (by intro d hd
        rcases List.mem_cons.mp hd with rfl | hd
        · rfl
        · rcases List.mem_cons.mp hd with rfl | hd
          · rfl
          · rcases List.mem_cons.mp hd with rfl | hd
            · rfl
            · cases hd)
  rw [h]
  rfl


end Brsr
